import Mathlib

/-!
# Verification of the jps-pipeline core logic

A shallow embedding, in Lean 4, of the pure data-transformation layer of the
jps-pipeline repository (the functions of `js/logic.js`): the query engine
(`getFiltered`), the free-text deal parser (`parseBlock`), the property
validator (`validatePropertyData`), the import merger (`validateImportData`),
the spread aggregator (`computeSpread`) and the CSV exporter
(`exportCSVString`).

JavaScript runtime values are modelled by an explicit datatype of primitive
values (`JPrim`), with numbers as extended rationals (`JSNum`: finite value,
the two infinities, or NaN).  JavaScript strings in the repository's data are
ASCII, so `toLowerCase`, `trim` and the regex character classes are modelled
at ASCII precision.  Operations that can raise a `TypeError` at run time
(property access on `null`/`undefined`, calling a string method on a number)
are modelled in the `Except String` monad; the error string plays the role of
the thrown exception.  `Array.prototype.sort` is modelled as a stable
insertion sort whose comparator receives the later element as its first
argument, which is the orientation the major engines use for short arrays;
comparator exceptions propagate.
-/

namespace JPS

/-! ## JavaScript numbers -/

/-- A JavaScript number: NaN, one of the two infinities, or a finite value.
Finite doubles are modelled as rationals. -/
inductive JSNum where
  | nan : JSNum
  | posInf : JSNum
  | negInf : JSNum
  | fin : ℚ → JSNum
deriving DecidableEq, Repr

/-- The JavaScript `<` comparison on numbers (any comparison with NaN is false). -/
def numLt : JSNum → JSNum → Bool
  | .nan, _ => false
  | _, .nan => false
  | .negInf, .negInf => false
  | .negInf, _ => true
  | _, .negInf => false
  | .posInf, _ => false
  | .fin _, .posInf => true
  | .fin a, .fin b => decide (a < b)

/-- The JavaScript `>` comparison on numbers. -/
def numGt (a b : JSNum) : Bool := numLt b a

/-- JavaScript subtraction on numbers. -/
def numSub : JSNum → JSNum → JSNum
  | .nan, _ => .nan
  | _, .nan => .nan
  | .posInf, .posInf => .nan
  | .posInf, _ => .posInf
  | .negInf, .negInf => .nan
  | .negInf, _ => .negInf
  | .fin _, .posInf => .negInf
  | .fin _, .negInf => .posInf
  | .fin a, .fin b => .fin (a - b)

/-- JavaScript `Math.abs`. -/
def numAbs : JSNum → JSNum
  | .nan => .nan
  | .posInf => .posInf
  | .negInf => .posInf
  | .fin a => .fin |a|

/-- JavaScript division restricted to a non-zero finite divisor (the only use
in the repository divides by the constant `1000*60*60*24`). -/
def numDivPos (a : JSNum) (d : ℚ) : JSNum :=
  match a with
  | .nan => .nan
  | .posInf => .posInf
  | .negInf => .negInf
  | .fin q => .fin (q / d)

/-- JavaScript `Math.floor`. -/
def numFloor : JSNum → JSNum
  | .nan => .nan
  | .posInf => .posInf
  | .negInf => .negInf
  | .fin q => .fin ((⌊q⌋ : ℤ) : ℚ)

/-! ## ASCII string utilities

All string manipulation is defined directly on `String.data` (a list of
characters), so that every proof obligation reduces by computation. -/

/-- ASCII lower-casing of one character, as `String.prototype.toLowerCase`
acts on the ASCII range. -/
def lowerChar (c : Char) : Char :=
  if 'A' ≤ c ∧ c ≤ 'Z' then Char.ofNat (c.toNat + 32) else c

/-- ASCII lower-casing of a string. -/
def lowerStr (s : String) : String := String.mk (s.data.map lowerChar)

/-- Whitespace test used for `\s` and for `trim`. -/
def isWs (c : Char) : Bool := c = ' ' ∨ c = '\t' ∨ c = '\n' ∨ c = '\r'

/-- Trim a character list on both sides. -/
def trimL (cs : List Char) : List Char :=
  ((cs.dropWhile isWs).reverse.dropWhile isWs).reverse

/-- `String.prototype.trim`. -/
def trimStr (s : String) : String := String.mk (trimL s.data)

/-- Is `pat` a prefix of `cs`? -/
def isPrefixL : List Char → List Char → Bool
  | [], _ => true
  | _ :: _, [] => false
  | a :: as, b :: bs => a == b && isPrefixL as bs

/-- Does `hay` contain `pat` as a contiguous run?  (`String.prototype.includes`.) -/
def containsL (hay pat : List Char) : Bool :=
  if isPrefixL pat hay then true
  else
    match hay with
    | [] => false
    | _ :: t => containsL t pat

/-- `s.includes(pat)`. -/
def containsStr (s pat : String) : Bool := containsL s.data pat.data

/-- Split a character list on a separator character (`String.prototype.split`
with a one-character separator). -/
def splitOnCharL (sep : Char) : List Char → List (List Char)
  | [] => [[]]
  | c :: cs =>
    let r := splitOnCharL sep cs
    if c = sep then [] :: r
    else
      match r with
      | [] => [[c]]
      | h :: t => (c :: h) :: t

/-- Join a list of strings with a separator (`Array.prototype.join`). -/
def joinWith (sep : String) : List String → String
  | [] => ""
  | [s] => s
  | s :: rest => s ++ sep ++ joinWith sep rest

/-! ## JavaScript primitive values -/

/-- A JavaScript primitive value. -/
inductive JPrim where
  | pnull : JPrim
  | pundefined : JPrim
  | pbool : Bool → JPrim
  | pnum : JSNum → JPrim
  | pstr : String → JPrim
deriving DecidableEq, Repr

/-- JavaScript truthiness. -/
def truthy : JPrim → Bool
  | .pnull => false
  | .pundefined => false
  | .pbool b => b
  | .pnum .nan => false
  | .pnum (.fin q) => decide (q ≠ 0)
  | .pnum _ => true
  | .pstr s => decide (s ≠ "")

/-- `ToNumber` on a string: trimmed empty string is `0`; an optional sign
followed by `Infinity` or by a decimal literal (integer part, optional `.`,
optional fraction, at least one digit in total) parses to its value; anything
else (the exotic forms — exponents, hex — do not occur in this code base's
data) is NaN. -/
def strToNumber (s : String) : JSNum :=
  let cs := trimL s.data
  if cs = [] then .fin 0
  else
    let (sgn, body) : ℚ × List Char :=
      match cs with
      | '-' :: r => (-1, r)
      | '+' :: r => (1, r)
      | r => (1, r)
    if body = "Infinity".data then (if sgn = 1 then .posInf else .negInf)
    else
      let ipart := body.takeWhile Char.isDigit
      let rest := body.dropWhile Char.isDigit
      let (fpart, rest2) : List Char × List Char :=
        match rest with
        | '.' :: r => (r.takeWhile Char.isDigit, r.dropWhile Char.isDigit)
        | r => ([], r)
      if rest2 = [] ∧ (ipart ≠ [] ∨ fpart ≠ []) then
        let iv : ℚ := ipart.foldl (fun a c => a * 10 + (c.toNat - '0'.toNat : ℕ)) 0
        let fv : ℚ := fpart.foldl (fun a c => a * 10 + (c.toNat - '0'.toNat : ℕ)) 0
        .fin (sgn * (iv + fv / (10 ^ fpart.length)))
      else .nan

/-- `ToNumber` on a primitive value. -/
def toNumber : JPrim → JSNum
  | .pnull => .fin 0
  | .pundefined => .nan
  | .pbool true => .fin 1
  | .pbool false => .fin 0
  | .pnum n => n
  | .pstr s => strToNumber s

/-- Lexicographic `<` on strings by code unit, as JavaScript compares two
strings (ASCII data, so code units and code points agree). -/
def strLtL : List Char → List Char → Bool
  | [], [] => false
  | [], _ :: _ => true
  | _ :: _, [] => false
  | a :: as, b :: bs =>
    if a.toNat < b.toNat then true
    else if b.toNat < a.toNat then false
    else strLtL as bs

/-- The JavaScript abstract relational comparison `a < b` on primitives: both
strings compare lexicographically, otherwise both sides are coerced with
`ToNumber`. -/
def jsLt (a b : JPrim) : Bool :=
  match a, b with
  | .pstr x, .pstr y => strLtL x.data y.data
  | _, _ => numLt (toNumber a) (toNumber b)

/-- The JavaScript abstract relational comparison `a > b` on primitives. -/
def jsGt (a b : JPrim) : Bool :=
  match a, b with
  | .pstr x, .pstr y => strLtL y.data x.data
  | _, _ => numGt (toNumber a) (toNumber b)

/-- JavaScript strict equality `===` on primitives (`NaN !== NaN`). -/
def jsStrictEq (a b : JPrim) : Bool :=
  match a, b with
  | .pnum .nan, _ => false
  | _, .pnum .nan => false
  | x, y => decide (x = y)

/-- JavaScript `String()` conversion of a primitive, as used by template
literals.  Finite numbers in this code base are decimal values whose decimal
expansion terminates; `numToString` renders that expansion (up to 30
fractional digits, far beyond any value the data model produces). -/
def fracDigits : ℚ → Nat → List Char
  | _, 0 => []
  | q, Nat.succ fuel =>
    if q = 0 then []
    else
      let q10 := q * 10
      let d : ℤ := ⌊q10⌋
      Char.ofNat ('0'.toNat + d.toNat) :: fracDigits (q10 - d) fuel

/-- Decimal rendering of a JavaScript number. -/
def numToString : JSNum → String
  | .nan => "NaN"
  | .posInf => "Infinity"
  | .negInf => "-Infinity"
  | .fin q =>
    let sign := if q < 0 then "-" else ""
    let q := |q|
    let ip : ℤ := ⌊q⌋
    let fp := q - ip
    let frac := fracDigits fp 30
    sign ++ toString ip.toNat ++ (if frac = [] then "" else "." ++ String.mk frac)

/-- `String()` conversion of a primitive (template-literal interpolation). -/
def jsTemplateStr : JPrim → String
  | .pnull => "null"
  | .pundefined => "undefined"
  | .pbool true => "true"
  | .pbool false => "false"
  | .pnum n => numToString n
  | .pstr s => s

/-- Element-to-string conversion used by `Array.prototype.join`: like
`String()` except that `null` and `undefined` render as the empty string. -/
def joinStr : JPrim → String
  | .pnull => ""
  | .pundefined => ""
  | v => jsTemplateStr v

/-! ## computeSpread

```js
function computeSpread(arv, asking, rehab) {
    if (!arv || !asking) return null;
    return arv - asking - (rehab || 0);
}
``` -/

/-- `a || b` on primitives (value-returning logical or). -/
def jsOr (a b : JPrim) : JPrim := if truthy a then a else b

/-- Binary `-` on primitives: both sides through `ToNumber`, then number
subtraction. -/
def jsMinus (a b : JPrim) : JSNum := numSub (toNumber a) (toNumber b)

/-- The `computeSpread` function of `js/logic.js`. -/
def computeSpread (arv asking rehab : JPrim) : JPrim :=
  if !truthy arv || !truthy asking then .pnull
  else .pnum (numSub (jsMinus arv asking) (toNumber (jsOr rehab (.pnum (.fin 0)))))

/-! ## The query engine: getFiltered

```js
function getFiltered(properties, { currentFilter = 'all', countyFilter = null,
    typeFilter = null, searchTerm = '', sortField = 'dateAdded',
    sortDirection = 'desc' } = {}) { ... }
```

A stored property record.  Each field holds a primitive value; `undefined`
models an absent field. -/

structure Property where
  id : JPrim := .pundefined
  address : JPrim := .pundefined
  city : JPrim := .pundefined
  zip : JPrim := .pundefined
  county : JPrim := .pundefined
  type : JPrim := .pundefined
  beds : JPrim := .pundefined
  baths : JPrim := .pundefined
  sqft : JPrim := .pundefined
  asking : JPrim := .pundefined
  arv : JPrim := .pundefined
  rehab : JPrim := .pundefined
  stage : JPrim := .pundefined
  access : JPrim := .pundefined
  pictures : JPrim := .pundefined
  contractLink : JPrim := .pundefined
  investorSheetLink : JPrim := .pundefined
  notes : JPrim := .pundefined
  lat : JPrim := .pundefined
  lng : JPrim := .pundefined
  geoPrecision : JPrim := .pundefined
  dateAdded : JPrim := .pundefined
  lastUpdated : JPrim := .pundefined
deriving DecidableEq, Repr

/-- Dynamic field access `p[sortField]`; an unknown name yields `undefined`. -/
def Property.getField (p : Property) (f : String) : JPrim :=
  if f = "id" then p.id
  else if f = "address" then p.address
  else if f = "city" then p.city
  else if f = "zip" then p.zip
  else if f = "county" then p.county
  else if f = "type" then p.type
  else if f = "beds" then p.beds
  else if f = "baths" then p.baths
  else if f = "sqft" then p.sqft
  else if f = "asking" then p.asking
  else if f = "arv" then p.arv
  else if f = "rehab" then p.rehab
  else if f = "stage" then p.stage
  else if f = "access" then p.access
  else if f = "pictures" then p.pictures
  else if f = "contractLink" then p.contractLink
  else if f = "investorSheetLink" then p.investorSheetLink
  else if f = "notes" then p.notes
  else if f = "lat" then p.lat
  else if f = "lng" then p.lng
  else if f = "geoPrecision" then p.geoPrecision
  else if f = "dateAdded" then p.dateAdded
  else if f = "lastUpdated" then p.lastUpdated
  else .pundefined

/-- The options object of `getFiltered`, with the source's defaults. -/
structure QueryOptions where
  currentFilter : String := "all"
  countyFilter : JPrim := .pnull
  typeFilter : JPrim := .pnull
  searchTerm : String := ""
  sortField : String := "dateAdded"
  sortDirection : String := "desc"

/-- `String.prototype.toLowerCase` as a method call: a `TypeError` on any
non-string receiver. -/
def jsToLower : JPrim → Except String String
  | .pstr s => .ok (lowerStr s)
  | _ => .error "TypeError: toLowerCase is not a function"

/-- The filter predicate of `getFiltered` (the body of `properties.filter`).
The search clauses call `toLowerCase` on `p.address` and `p.city`
unconditionally once `searchTerm` is non-empty, so those calls can throw. -/
def filterPred (o : QueryOptions) (p : Property) : Except String Bool := do
  let stageOk :=
    o.currentFilter = "all" ||
    (o.currentFilter = "ready" && jsStrictEq p.stage (.pstr "Ready to Blast")) ||
    (o.currentFilter = "new" && jsStrictEq p.stage (.pstr "New")) ||
    (o.currentFilter = "hold" && jsStrictEq p.stage (.pstr "On Hold")) ||
    (o.currentFilter = "high" && jsStrictEq p.stage (.pstr "Too High")) ||
    (o.currentFilter = "sold" && jsStrictEq p.stage (.pstr "Sold"))
  let countyOk := !truthy o.countyFilter || jsStrictEq p.county o.countyFilter
  let typeOk := !truthy o.typeFilter || jsStrictEq p.type o.typeFilter
  let searchLower := lowerStr o.searchTerm
  let searchOk ←
    if o.searchTerm = "" then pure true
    else do
      let a ← jsToLower p.address
      if containsStr a searchLower then pure true
      else do
        let c ← jsToLower p.city
        if containsStr c searchLower then pure true
        else do
          let notesClause : Except String Bool :=
            if truthy p.notes then do
              let n ← jsToLower p.notes
              pure (containsStr n searchLower)
            else pure false
          if truthy p.county then do
            let co ← jsToLower p.county
            if containsStr co searchLower then pure true else notesClause
          else notesClause
  pure (stageOk && countyOk && typeOk && searchOk)

/-- `Array.prototype.filter` with a predicate that may throw. -/
def filterE (pred : α → Except String Bool) : List α → Except String (List α)
  | [] => .ok []
  | x :: xs => do
    let b ← pred x
    let rest ← filterE pred xs
    pure (if b then x :: rest else rest)

/-- The sort comparator of `getFiltered`.  A `null`/`undefined`/empty key is
replaced by `+Infinity` (ascending) or `-Infinity` (descending); then, when
the first key is a string, `toLowerCase` is applied to BOTH keys — which
throws a `TypeError` when the second key is a number (in particular when it is
the infinity just substituted for a null). -/
def sortKeySubst (dir : String) (v : JPrim) : JPrim :=
  if v = .pnull ∨ v = .pundefined ∨ v = .pstr "" then
    .pnum (if dir = "asc" then .posInf else .negInf)
  else v

/-- Is the primitive a string? -/
def isStr : JPrim → Bool
  | .pstr _ => true
  | _ => false

/-- One comparator call `(a, b) => { ... }` of `getFiltered`'s sort. -/
def sortCmp (o : QueryOptions) (a b : Property) : Except String Int := do
  let av := sortKeySubst o.sortDirection (a.getField o.sortField)
  let bv := sortKeySubst o.sortDirection (b.getField o.sortField)
  let (av, bv) ←
    if isStr av then do
      let la ← jsToLower av
      let lb ← jsToLower bv
      pure (JPrim.pstr la, JPrim.pstr lb)
    else pure (av, bv)
  if o.sortDirection = "asc" then
    pure (if jsGt av bv then 1 else if jsLt av bv then -1 else 0)
  else
    pure (if jsLt av bv then 1 else if jsGt av bv then -1 else 0)

/-- Insert an element into an already-sorted prefix: the element is placed
before the first member that compares strictly greater (comparator result
`< 0`), so equal keys keep their original relative order (stability). The
inserted element — the one that occurs later in the input — is the
comparator's first argument, as in the engines' insertion sorts. -/
def insertCmp (cmp : α → α → Except String Int) (x : α) :
    List α → Except String (List α)
  | [] => .ok [x]
  | y :: ys => do
    let c ← cmp x y
    if c < 0 then pure (x :: y :: ys)
    else do
      let r ← insertCmp cmp x ys
      pure (y :: r)

/-- Stable insertion sort driven by a JavaScript comparator; a comparator
exception aborts the sort, as `Array.prototype.sort` propagates it. -/
def sortLoop (cmp : α → α → Except String Int) :
    List α → List α → Except String (List α)
  | acc, [] => .ok acc
  | acc, x :: xs => do
    let acc2 ← insertCmp cmp x acc
    sortLoop cmp acc2 xs

/-- `Array.prototype.sort` with a JavaScript comparator. -/
def jsSort (cmp : α → α → Except String Int) (l : List α) :
    Except String (List α) := sortLoop cmp [] l

/-- The `getFiltered` function of `js/logic.js`. -/
def getFiltered (properties : List Property) (o : QueryOptions) :
    Except String (List Property) := do
  let f ← filterE (filterPred o) properties
  jsSort (sortCmp o) f

/-- `getFiltered` together with the final contents of the caller's input
array: `properties.filter` allocates a fresh array `f` and only reads the
input, and `sort` is invoked on `f`, never on the input, so the input
contents pass through each step unchanged — including when the filter
predicate or the comparator throws. -/
def getFilteredHeap (properties : List Property) (o : QueryOptions) :
    Except String (List Property) × List Property :=
  let inputAfterFilter := properties
  match filterE (filterPred o) properties with
  | .error e => (.error e, inputAfterFilter)
  | .ok f =>
    let inputAfterSort := inputAfterFilter
    match jsSort (sortCmp o) f with
    | .error e => (.error e, inputAfterSort)
    | .ok sorted => (.ok sorted, inputAfterSort)

/-- The failing input of C1: sorting by the string field `county`, ascending,
with a null-county record ahead of a non-null one.  The comparator call on
the pair substitutes `+Infinity` for the null key, sees that the other key is
a string, and calls `toLowerCase` on the number — a `TypeError`.  `getFiltered`
therefore throws instead of returning an array with the null-key record last. -/
def c1NullCounty : Property :=
  { address := .pstr "1 A St", city := .pstr "X", stage := .pstr "New",
    county := .pnull }

def c1ButlerCounty : Property :=
  { address := .pstr "2 B St", city := .pstr "Y", stage := .pstr "New",
    county := .pstr "Butler" }

/-! ## Import merger and property validator

The import merger and the validator receive arbitrary JavaScript values.  The
value universe is modelled as: primitives, objects whose own properties are
primitives, and arrays whose elements are primitives or such objects (the
shapes exercised by the repository's data and tests). -/

/-- An element of an imported array: a primitive or a flat object. -/
inductive JElem where
  | prim : JPrim → JElem
  | obj : List (String × JPrim) → JElem
deriving DecidableEq, Repr

/-- A JavaScript value passed to `validateImportData` / `validatePropertyData`. -/
inductive JSInput where
  | prim : JPrim → JSInput
  | obj : List (String × JPrim) → JSInput
  | arr : List JElem → JSInput
deriving DecidableEq, Repr

/-- First-match lookup of an object's own property (`undefined` when absent). -/
def lookupField (fs : List (String × JPrim)) (k : String) : JPrim :=
  match fs with
  | [] => .pundefined
  | (k', v) :: rest => if k' = k then v else lookupField rest k

/-- Property access `e[k]` on an array element: a `TypeError` on `null` or
`undefined`, `undefined` on other primitives (no built-in members are
modelled), and own-property lookup on objects. -/
def JElem.getProp : JElem → String → Except String JPrim
  | .prim .pnull, k =>
    .error ("TypeError: Cannot read properties of null (reading " ++ k ++ ")")
  | .prim .pundefined, k =>
    .error ("TypeError: Cannot read properties of undefined (reading " ++ k ++ ")")
  | .prim _, _ => .ok .pundefined
  | .obj fs, k => .ok (lookupField fs k)

/-- Property access `data[k]` on a top-level input value. -/
def JSInput.getProp : JSInput → String → Except String JPrim
  | .prim .pnull, k =>
    .error ("TypeError: Cannot read properties of null (reading " ++ k ++ ")")
  | .prim .pundefined, k =>
    .error ("TypeError: Cannot read properties of undefined (reading " ++ k ++ ")")
  | .prim _, _ => .ok .pundefined
  | .obj fs, k => .ok (lookupField fs k)
  | .arr _, _ => .ok .pundefined

/-- `Array.prototype.every`: evaluates the predicate left to right, stops at
the first falsy result, propagates exceptions. -/
def jsEvery (p : JElem → Except String Bool) : List JElem → Except String Bool
  | [] => .ok true
  | x :: xs => do
    let b ← p x
    if b then jsEvery p xs else pure false

/-- The predicate `p => p.address && p.city` of `validateImportData`
(`&&` short-circuits, so `p.city` is only read when `p.address` is truthy). -/
def predAddrCity (e : JElem) : Except String Bool := do
  let a ← e.getProp "address"
  if truthy a then do
    let c ← e.getProp "city"
    pure (truthy c)
  else pure false

/-- The deduplication loop of `validateImportData`: walk the array, keep a
record when its `id` has not been seen, remember seen ids.  `Set` membership
is `SameValueZero`, which on the primitive ids of this model is structural
equality. -/
def dedupById : List JElem → List JPrim → Except String (List JElem)
  | [], _ => .ok []
  | e :: rest, seen => do
    let idv ← e.getProp "id"
    if seen.contains idv then dedupById rest seen
    else do
      let tail ← dedupById rest (idv :: seen)
      pure (e :: tail)

/-- The two result shapes of `validateImportData`. -/
inductive ImportResult where
  | failure : String → ImportResult
  | success : List JElem → Nat → ImportResult
deriving DecidableEq, Repr

/-- The `validateImportData` function of `js/logic.js`:

```js
function validateImportData(data) {
    if (!Array.isArray(data)) {
        return { valid: false, error: 'Expected array of properties' };
    }
    if (!data.every(p => p.address && p.city)) {
        return { valid: false, error: 'Missing required fields (address, city)' };
    }
    const uniqueData = [];
    const seenIds = new Set();
    for (const prop of data) {
        if (!seenIds.has(prop.id)) {
            seenIds.add(prop.id);
            uniqueData.push(prop);
        }
    }
    return { valid: true, properties: uniqueData,
             duplicatesRemoved: data.length - uniqueData.length };
}
``` -/
def validateImportData : JSInput → Except String ImportResult
  | .prim _ => .ok (.failure "Expected array of properties")
  | .obj _ => .ok (.failure "Expected array of properties")
  | .arr xs => do
    let ok ← jsEvery predAddrCity xs
    if ok then do
      let uniqueData ← dedupById xs []
      pure (.success uniqueData (xs.length - uniqueData.length))
    else pure (.failure "Missing required fields (address, city)")

/-! ### validatePropertyData -/

/-- The check `!data.X || data.X.trim().length === 0` followed by a push of
`msg`: falsy values fail the check outright; a truthy string is trimmed and
tested for emptiness; a truthy non-string has no `trim` method, a `TypeError`. -/
def requiredCheck (v : JPrim) (msg : String) : Except String (List String) :=
  if truthy v = false then .ok [msg]
  else
    match v with
    | .pstr s => .ok (if (trimStr s).data.length = 0 then [msg] else [])
    | _ => .error "TypeError: trim is not a function"

/-- The check `data.X !== null && (data.X < lo || data.X > hi)`; comparisons
never throw on primitives. -/
def rangeCheck (v : JPrim) (lo hi : ℚ) (msg : String) : List String :=
  if v = .pnull then []
  else if jsLt v (.pnum (.fin lo)) || jsGt v (.pnum (.fin hi)) then [msg]
  else []

/-- Modelled from the spec: the platform `URL` constructor used by
`isValidURL` is not part of the repository; per the spec a link value is
valid exactly when it parses as an absolute URL, i.e. begins with a scheme —
a letter followed by letters/digits/`+`/`-`/`.` — and a `:`. -/
def hasScheme : List Char → Bool
  | [] => false
  | c :: rest =>
    if c.isAlpha then schemeRest rest else false
where
  schemeRest : List Char → Bool
    | [] => false
    | c :: rest =>
      if c = ':' then true
      else if c.isAlpha || c.isDigit || c = '+' || c = '-' || c = '.' then
        schemeRest rest
      else false

/-- `isValidURL` of `js/logic.js` (`new URL(string)` inside `try`/`catch`):
the argument is coerced to a string, and validity is scheme-based as in the
spec.  Never throws. -/
def isValidURL (v : JPrim) : Bool := hasScheme (jsTemplateStr v).data

/-- The check `data.X && !isValidURL(data.X)`. -/
def urlCheck (v : JPrim) (msg : String) : List String :=
  if truthy v && !isValidURL v then [msg] else []

/-- The anchored test `/^\d{5}(-\d{4})?$/`. -/
def zipMatch (s : String) : Bool :=
  match s.data with
  | [a, b, c, d, e] => a.isDigit && b.isDigit && c.isDigit && d.isDigit && e.isDigit
  | [a, b, c, d, e, dash, f, g, h, i] =>
    a.isDigit && b.isDigit && c.isDigit && d.isDigit && e.isDigit &&
    dash = '-' && f.isDigit && g.isDigit && h.isDigit && i.isDigit
  | _ => false

/-- The check `data.zip && !/^\d{5}(-\d{4})?$/.test(data.zip)`
(`RegExp.prototype.test` coerces its argument to a string and never throws). -/
def zipCheck (v : JPrim) (msg : String) : List String :=
  if truthy v && !zipMatch (jsTemplateStr v) then [msg] else []

/-- The `validatePropertyData` function of `js/logic.js`: all twelve checks
run in source order and their violation messages are concatenated. -/
def validatePropertyData (data : JSInput) : Except String (List String) := do
  let addr ← data.getProp "address"
  let e1 ← requiredCheck addr "Address is required"
  let city ← data.getProp "city"
  let e2 ← requiredCheck city "City is required"
  let beds ← data.getProp "beds"
  let baths ← data.getProp "baths"
  let sqft ← data.getProp "sqft"
  let asking ← data.getProp "asking"
  let arv ← data.getProp "arv"
  let rehab ← data.getProp "rehab"
  let pics ← data.getProp "pictures"
  let con ← data.getProp "contractLink"
  let inv ← data.getProp "investorSheetLink"
  let zip ← data.getProp "zip"
  pure (e1 ++ e2
    ++ rangeCheck beds 0 50 "Beds must be between 0 and 50"
    ++ rangeCheck baths 0 50 "Baths must be between 0 and 50"
    ++ rangeCheck sqft 0 1000000 "Square footage must be between 0 and 1,000,000"
    ++ rangeCheck asking 0 100000000 "Asking price must be between $0 and $100,000,000"
    ++ rangeCheck arv 0 100000000 "ARV must be between $0 and $100,000,000"
    ++ rangeCheck rehab 0 100000000 "Rehab cost must be between $0 and $100,000,000"
    ++ urlCheck pics "Pictures link must be a valid URL"
    ++ urlCheck con "Contract link must be a valid URL"
    ++ urlCheck inv "Investor sheet link must be a valid URL"
    ++ zipCheck zip "ZIP code must be 5 digits (optional 4-digit extension)")

/-! ### Deduplication lemmas -/

/-- The id key of an element, as the dedup loop reads it (total form:
property access on a non-null primitive yields `undefined`). -/
def elemKey : JElem → JPrim
  | .prim _ => .pundefined
  | .obj fs => lookupField fs "id"

/-- Elements on which property access does not throw. -/
def notNullish (e : JElem) : Prop := e ≠ .prim .pnull ∧ e ≠ .prim .pundefined

instance (e : JElem) : Decidable (notNullish e) := by
  unfold notNullish
  infer_instance

/-- The dedup loop with the (non-throwing) key projection made explicit. -/
def dedupPure : List JElem → List JPrim → List JElem
  | [], _ => []
  | e :: rest, seen =>
    if elemKey e ∈ seen then dedupPure rest seen
    else e :: dedupPure rest (elemKey e :: seen)

/-! ### every-predicate lemmas -/

/-- A record accepted by the `p.address && p.city` precondition: an object
with truthy `address` and `city`. -/
def goodRec (e : JElem) : Prop :=
  ∃ fs, e = .obj fs ∧ truthy (lookupField fs "address") = true ∧
    truthy (lookupField fs "city") = true

/-- Records of the dedup example of the spec (ids "1", "1", "2") and a
null-id pair. -/
def c3r1 : JElem :=
  .obj [("id", .pstr "1"), ("address", .pstr "123 Main St"), ("city", .pstr "Chester")]

def c3r2 : JElem :=
  .obj [("id", .pstr "1"), ("address", .pstr "456 Oak Ave"), ("city", .pstr "Bruin")]

def c3r3 : JElem :=
  .obj [("id", .pstr "2"), ("address", .pstr "789 Elm St"), ("city", .pstr "Darby")]

def c3n1 : JElem :=
  .obj [("id", .pnull), ("address", .pstr "9 X St"), ("city", .pstr "A")]

def c3n2 : JElem :=
  .obj [("id", .pnull), ("address", .pstr "10 Y St"), ("city", .pstr "B")]

/-! ### C4: exception behaviour of the two validators -/

/-- Total field read on a non-null input value. -/
def getPropD : JSInput → String → JPrim
  | .prim _, _ => .pundefined
  | .obj fs, k => lookupField fs k
  | .arr _, _ => .pundefined

/-- Inputs on which property access does not throw. -/
def inputNotNullish (d : JSInput) : Prop := d ≠ .prim .pnull ∧ d ≠ .prim .pundefined

instance (d : JSInput) : Decidable (inputNotNullish d) := by
  unfold inputNotNullish
  infer_instance

/-- A value the required-field check can process without throwing: falsy, or
a string. -/
def strOrFalsy (v : JPrim) : Prop := truthy v = false ∨ ∃ s, v = .pstr s

/-- The violations contributed by one required-field check (total form). -/
def reqErrs (v : JPrim) (msg : String) : List String :=
  if truthy v = false then [msg]
  else
    match v with
    | .pstr s => if (trimStr s).data.length = 0 then [msg] else []
    | _ => []

/-! ### C8: the beds bound and violation accumulation -/

/-- The full violation list of `validatePropertyData` on an object input
(the pure accumulation of its twelve checks, in source order). -/
def propErrsOf (fs : List (String × JPrim)) : List String :=
  reqErrs (lookupField fs "address") "Address is required" ++
  reqErrs (lookupField fs "city") "City is required" ++
  rangeCheck (lookupField fs "beds") 0 50 "Beds must be between 0 and 50" ++
  rangeCheck (lookupField fs "baths") 0 50 "Baths must be between 0 and 50" ++
  rangeCheck (lookupField fs "sqft") 0 1000000
    "Square footage must be between 0 and 1,000,000" ++
  rangeCheck (lookupField fs "asking") 0 100000000
    "Asking price must be between $0 and $100,000,000" ++
  rangeCheck (lookupField fs "arv") 0 100000000
    "ARV must be between $0 and $100,000,000" ++
  rangeCheck (lookupField fs "rehab") 0 100000000
    "Rehab cost must be between $0 and $100,000,000" ++
  urlCheck (lookupField fs "pictures") "Pictures link must be a valid URL" ++
  urlCheck (lookupField fs "contractLink") "Contract link must be a valid URL" ++
  urlCheck (lookupField fs "investorSheetLink")
    "Investor sheet link must be a valid URL" ++
  zipCheck (lookupField fs "zip")
    "ZIP code must be 5 digits (optional 4-digit extension)"

/-- A candidate record with the given beds value. -/
def c8fs (b : JPrim) : List (String × JPrim) :=
  [("address", .pstr "1 Elm St"), ("city", .pstr "Chester"), ("beds", b)]

/-! ## The deal block parser: parseBlock

Each regular expression of the source is compiled by hand into a
deterministic matcher on character lists.  For these patterns greedy matching
without backtracking is equivalent to the regex semantics (established case
by case in the comments), and `String.prototype.match` finds the leftmost
position at which a match starts (`scanFirst`). -/

/-- Value of a digit run. -/
def digitsToNat (ds : List Char) : Nat :=
  ds.foldl (fun a c => a * 10 + (c.toNat - '0'.toNat)) 0

/-- `parseFloat` of a captured `digits[.digits]` literal, kept as an exact
decimal (mantissa and scale, value = mant / 10^scale).  The captures are
short decimal literals, which doubles represent exactly at this precision. -/
structure JSDecimal where
  mant : ℕ
  scale : ℕ
deriving DecidableEq, Repr

/-- Build the decimal from the integer-part and fraction-part captures. -/
def decOfParts (ip fp : List Char) : JSDecimal :=
  ⟨digitsToNat ip * 10 ^ fp.length + digitsToNat fp, fp.length⟩

/-- `Math.round(parseFloat(capture) * 1000)` for a capture with parts
`ip`/`fp`, computed in integer arithmetic: with `f = value(fp)` and
`L = |fp|`, the value times 1000 is `ip·1000 + f·1000/10^L`, and rounding
half up gives `ip·1000 + ⌊(2000·f + 10^L) / (2·10^L)⌋`. -/
def kRound1000 (ip fp : List Char) : ℕ :=
  digitsToNat ip * 1000 +
    (2000 * digitsToNat fp + 10 ^ fp.length) / (2 * 10 ^ fp.length)

/-- `kRound1000` on a captured pair. -/
def kRoundOf (kv : List Char × List Char) : ℕ := kRound1000 kv.1 kv.2

/-- Leftmost-match driver: try the matcher at every start position, left to
right (all the patterns below need at least one character). -/
def scanFirst (f : List Char → Option α) : List Char → Option α
  | [] => none
  | c :: cs =>
    match f (c :: cs) with
    | some a => some a
    | none => scanFirst f cs

/-- A match of `(\d+\.?\d*)\s*k` (case-insensitive) starting here: a digit
run, an optional dot with a further digit run, whitespace, then `k`.  Greedy
runs are exact: giving back characters would put a digit, dot or space where
`k` is required. -/
def parseKAt (cs : List Char) : Option (List Char × List Char) :=
  let d1 := cs.takeWhile Char.isDigit
  if d1 = [] then none
  else
    let r1 := cs.dropWhile Char.isDigit
    let (fp, r2) : List Char × List Char :=
      match r1 with
      | '.' :: r => (r.takeWhile Char.isDigit, r.dropWhile Char.isDigit)
      | r => ([], r)
    match r2.dropWhile isWs with
    | c :: _ => if lowerChar c = 'k' then some (d1, fp) else none
    | [] => none

/-- First `(\d+\.?\d*)\s*k` match of the line — the captured number's parts
(the regex of both the ARV and the asking rule). -/
def findKNum (line : String) : Option (List Char × List Char) :=
  scanFirst parseKAt line.data

/-- A match of `\$?\d+\.?\d*k` (no whitespace before the `k`) starting here. -/
def bareKAt (cs : List Char) : Bool :=
  let cs2 := match cs with | '$' :: r => r | r => r
  let d1 := cs2.takeWhile Char.isDigit
  if d1 = [] then false
  else
    let r1 := cs2.dropWhile Char.isDigit
    let r2 : List Char :=
      match r1 with
      | '.' :: r => r.dropWhile Char.isDigit
      | r => r
    match r2 with
    | c :: _ => lowerChar c = 'k'
    | [] => false

/-- Does `\$?\d+\.?\d*k` match anywhere in the string? -/
def bareKTest (s : String) : Bool :=
  (scanFirst (fun cs => if bareKAt cs then some () else none) s.data).isSome

/-- A match of `(\d+)\s*(?:br|bed)` (case-insensitive) starting here; the
ordered alternation tries `br` first, then `bed`. -/
def bedsAt (cs : List Char) : Option Nat :=
  let d1 := cs.takeWhile Char.isDigit
  if d1 = [] then none
  else
    match (cs.dropWhile Char.isDigit).dropWhile isWs with
    | b :: rest =>
      if lowerChar b = 'b' then
        match rest with
        | r :: _ =>
          if lowerChar r = 'r' then some (digitsToNat d1)
          else
            match rest with
            | e :: d :: _ =>
              if lowerChar e = 'e' ∧ lowerChar d = 'd' then some (digitsToNat d1)
              else none
            | _ => none
        | [] => none
      else none
    | [] => none

/-- First `(\d+)\s*(?:br|bed)` match of the line. -/
def findBeds (line : String) : Option Nat := scanFirst bedsAt line.data

/-- A match of `(\d+\.?\d*)\s*(?:ba|bath)` starting here (the `ba`
alternative subsumes `bath`). -/
def bathsAt (cs : List Char) : Option JSDecimal :=
  let d1 := cs.takeWhile Char.isDigit
  if d1 = [] then none
  else
    let r1 := cs.dropWhile Char.isDigit
    let (fp, r2) : List Char × List Char :=
      match r1 with
      | '.' :: r => (r.takeWhile Char.isDigit, r.dropWhile Char.isDigit)
      | r => ([], r)
    match r2.dropWhile isWs with
    | b :: a :: _ =>
      if lowerChar b = 'b' ∧ lowerChar a = 'a' then some (decOfParts d1 fp)
      else none
    | _ => none

/-- First `(\d+\.?\d*)\s*(?:ba|bath)` match of the line. -/
def findBaths (line : String) : Option JSDecimal := scanFirst bathsAt line.data

/-- A match of `(https?:\/\/[^\s]+)` starting here (case-sensitive). -/
def urlAt (cs : List Char) : Option String :=
  match cs with
  | 'h' :: 't' :: 't' :: 'p' :: 's' :: ':' :: '/' :: '/' :: r =>
    let run := r.takeWhile (fun c => !isWs c)
    if run = [] then none else some ("https://" ++ String.mk run)
  | 'h' :: 't' :: 't' :: 'p' :: ':' :: '/' :: '/' :: r =>
    let run := r.takeWhile (fun c => !isWs c)
    if run = [] then none else some ("http://" ++ String.mk run)
  | _ => none

/-- First URL of the line. -/
def findURL (line : String) : Option String := scanFirst urlAt line.data

/-- `line.match(/https?:\/\//)` as a boolean. -/
def urlTest (line : String) : Bool :=
  containsStr line "http://" || containsStr line "https://"

/-- Case-insensitive prefix test (the pattern is given in lower case). -/
def isPrefixCI : List Char → List Char → Bool
  | [], _ => true
  | _ :: _, [] => false
  | a :: as, b :: bs => lowerChar a == lowerChar b && isPrefixCI as bs

/-- `String.prototype.replace` with a case-insensitive literal pattern and an
empty replacement: remove the first occurrence. -/
def removeFirstCI (pat : List Char) : List Char → List Char
  | [] => []
  | c :: cs =>
    if isPrefixCI pat (c :: cs) then (c :: cs).drop pat.length
    else c :: removeFirstCI pat cs

/-- `line.replace(/access:?/i, '')`: remove the first occurrence of
`access`, together with one following colon when present. -/
def accessStrip : List Char → List Char
  | [] => []
  | c :: cs =>
    if isPrefixCI ("access".data) (c :: cs) then
      match (c :: cs).drop 6 with
      | ':' :: r => r
      | r => r
    else c :: accessStrip cs

/-- Split at the first comma.  A `[^,]+` group can never cross a comma, so
in both address patterns the commas consumed by the regex are exactly the
first ones. -/
def splitAtComma : List Char → Option (List Char × List Char)
  | [] => none
  | c :: cs =>
    if c = ',' then some ([], cs)
    else
      match splitAtComma cs with
      | some (pre, post) => some (c :: pre, post)
      | none => none

/-- The optional capture `(\d{5})?`: five leading digits, or the empty
string (`m[3] || ''`). -/
def takeZip5 (cs : List Char) : String :=
  match cs with
  | a :: b :: c :: d :: e :: _ =>
    if a.isDigit ∧ b.isDigit ∧ c.isDigit ∧ d.isDigit ∧ e.isDigit then
      String.mk [a, b, c, d, e]
    else ""
  | _ => ""

/-- The anchored pattern `^(\d+[^,]+),\s*([^,]+),\s*PA\s*(\d{5})?` with `/i`
(no end anchor: trailing text is allowed).  `\d+[^,]+` matches the run before
the first comma exactly when it starts with a digit and has length at least
two; `\s*([^,]+)` combined with the trailing `.trim()` in the caller yields
the trimmed second segment, which must be non-empty. -/
def matchAddrFull (line : String) : Option (String × String × String) :=
  match line.data with
  | [] => none
  | c :: _ =>
    if !c.isDigit then none
    else
      match splitAtComma line.data with
      | none => none
      | some (g1, rest1) =>
        if g1.length < 2 then none
        else
          match splitAtComma rest1 with
          | none => none
          | some (seg2, rest2) =>
            if seg2 = [] then none
            else
              match rest2.dropWhile isWs with
              | p :: a :: r2 =>
                if lowerChar p = 'p' ∧ lowerChar a = 'a' then
                  some (String.mk g1, String.mk seg2, takeZip5 (r2.dropWhile isWs))
                else none
              | _ => none

/-- The anchored pattern `^(\d+[^,]+),\s*([A-Za-z\s]+)$`: after the first
comma, the whole remainder must be non-empty and consist of ASCII letters
and whitespace. -/
def matchAddrLoose (line : String) : Option (String × String) :=
  match line.data with
  | [] => none
  | c :: _ =>
    if !c.isDigit then none
    else
      match splitAtComma line.data with
      | none => none
      | some (g1, rest) =>
        if g1.length < 2 then none
        else if rest ≠ [] ∧ rest.all (fun ch => ch.isAlpha || isWs ch) then
          some (String.mk g1, String.mk rest)
        else none

/-- The mutable locals of `parseBlock`'s loop. -/
structure ParseState where
  address : String := ""
  city : String := ""
  zip : String := ""
  county : String := ""
  beds : Option ℕ := none
  baths : Option JSDecimal := none
  asking : Option ℕ := none
  access : Option String := none
  pictures : Option String := none
  arv : Option ℕ := none
  notes : List String := []
deriving DecidableEq, Repr

/-- The record `parseBlock` returns. -/
structure ParsedDeal where
  address : String
  city : String
  zip : String
  county : String
  beds : Option ℕ
  baths : Option JSDecimal
  asking : Option ℕ
  access : Option String
  pictures : Option String
  arv : Option ℕ
  notes : String
deriving DecidableEq, Repr

/-- Trigger of the access rule: the line mentions access, lockbox, door or
code. -/
def accessTrigger (lower : String) : Bool :=
  containsStr lower "access" || containsStr lower "lockbox" ||
  containsStr lower "door" || containsStr lower "code"

/-- Trigger of the picture rule: the line mentions dropbox, photos or pics,
or contains a URL. -/
def picTrigger (line lower : String) : Bool :=
  containsStr lower "dropbox" || containsStr lower "photos" ||
  containsStr lower "pics" || urlTest line

/-- Rule 8: a leftover line longer than three characters becomes a note. -/
def noteLine (st : ParseState) (line : String) : ParseState :=
  if 3 < line.data.length then { st with notes := st.notes ++ [line] } else st

/-- Rules 6–8 of the line loop. -/
def parseTail (st : ParseState) (line lower : String) : ParseState :=
  if accessTrigger lower then
    { st with access := some (trimStr (String.mk (accessStrip line.data))) }
  else if picTrigger line lower then
    match findURL line with
    | some u => { st with pictures := some u }
    | none => noteLine st line
  else noteLine st line

/-- Rules 2–8 of the line loop.  The ARV/worth rule is checked before the
asking rule; when its trigger fires but the line has no K-number, control
falls through to the asking rule (which then also finds no K-number) and on
to the later rules. -/
def parseRest (st : ParseState) (line lower : String) : ParseState :=
  if containsStr lower "county" then
    { st with county := trimStr (String.mk (removeFirstCI ("county".data) line.data)) }
  else
    let bm := findBeds line
    let btm := findBaths line
    if bm.isSome || btm.isSome then
      { st with
        beds := match bm with | some n => some n | none => st.beds,
        baths := match btm with | some q => some q | none => st.baths }
    else
      let kv := findKNum line
      if (containsStr lower "arv" || containsStr lower "worth") && kv.isSome then
        { st with arv := some (kRoundOf (kv.getD ([], []))) }
      else if (containsStr lower "asking" || bareKTest lower) && kv.isSome then
        { st with asking := some (kRoundOf (kv.getD ([], []))) }
      else parseTail st line lower

/-- One iteration of the line loop: the address rules run only while the
address is still unset, and the loose address pattern is rejected for lines
mentioning "county". -/
def parseLine (st : ParseState) (line : String) : ParseState :=
  let lower := lowerStr line
  if st.address = "" then
    match matchAddrFull line with
    | some (a, c, z) => { st with address := trimStr a, city := trimStr c, zip := z }
    | none =>
      match matchAddrLoose line with
      | some (a, c) =>
        if containsStr lower "county" then parseRest st line lower
        else { st with address := trimStr a, city := trimStr c }
      | none => parseRest st line lower
  else parseRest st line lower

/-- The `parseBlock` function of `js/logic.js`: split on newlines, trim,
drop empty lines, fold the line loop, join the notes. -/
def parseBlock (block : String) : ParsedDeal :=
  let lines := ((splitOnCharL '\n' block.data).map
    (fun cs => trimStr (String.mk cs))).filter (fun l => l ≠ "")
  let st := lines.foldl parseLine {}
  { address := st.address, city := st.city, zip := st.zip, county := st.county,
    beds := st.beds, baths := st.baths, asking := st.asking,
    access := st.access, pictures := st.pictures, arv := st.arv,
    notes := joinWith "\n" st.notes }

/-- The parse state after the address line of the ARV example. -/
def c6st : ParseState := { address := "123 Main St", city := "Chester" }

/-! ## The CSV exporter: exportCSVString

`new Date()` and `new Date(d)` are platform clock/date-parsing calls, so the
embedding takes the current time (`nowMs`) and the date-string-to-milliseconds
conversion (`dateToMs`) as explicit parameters; every theorem below holds for
all instantiations. -/

/-- `.replace(/"/g, '""')` on the character list: double every quote. -/
def escQAux : List Char → List Char
  | [] => []
  | c :: cs => if c = '"' then '"' :: '"' :: escQAux cs else c :: escQAux cs

/-- `.replace(/"/g, '""')`. -/
def escQuotes (s : String) : String := String.mk (escQAux s.data)

/-- Number of double-quote characters in a string. -/
def countQuote (s : String) : ℕ := s.data.count '"'

/-- `v || ''`. -/
def jsOrEmptyStr (v : JPrim) : JPrim := if truthy v then v else .pstr ""

/-- `getDaysSinceAdded` of `js/logic.js`:
`if (!d) return null; return Math.floor(Math.abs(now - parse(d)) / 86400000)`. -/
def getDaysSinceAdded (dateToMs : JPrim → JSNum) (nowMs : JSNum) (d : JPrim) :
    JPrim :=
  if truthy d = false then .pnull
  else .pnum (numFloor (numDivPos (numAbs (numSub nowMs (dateToMs d))) 86400000))

/-- The notes cell: `"${(p.notes||'').replace(/"/g,'""')}"`.  When
`p.notes || ''` is a truthy non-string, `.replace` is a `TypeError`. -/
def notesCellStr (v : JPrim) : Except String String :=
  match jsOrEmptyStr v with
  | .pstr s => .ok ("\"" ++ escQuotes s ++ "\"")
  | _ => .error "TypeError: replace is not a function"

/-- The 23-column header of `exportCSVString`. -/
def csvHeader : String :=
  joinWith "," ["Address", "City", "ZIP", "County", "Type", "Beds", "Baths",
    "Sq Ft", "Asking", "ARV", "Rehab", "Access", "Stage", "Notes", "Photos",
    "Contract Link", "Investor Sheet", "Lat", "Lng", "Geo Precision",
    "Date Added", "Days Since Added", "Last Updated"]

/-- The 23 cells of one row, with the notes cell passed in: `address`,
`access` and `notes` are wrapped in quotes by template literals, all other
columns are the raw (or `|| ''`-defaulted) value as `join` renders it. -/
def rowCellsAux (dateToMs : JPrim → JSNum) (nowMs : JSNum) (p : Property)
    (nc : String) : List String :=
  let d := getDaysSinceAdded dateToMs nowMs p.dateAdded
  [ "\"" ++ jsTemplateStr p.address ++ "\"",
    joinStr p.city,
    joinStr (jsOrEmptyStr p.zip),
    joinStr (jsOrEmptyStr p.county),
    joinStr p.type,
    joinStr (jsOrEmptyStr p.beds),
    joinStr (jsOrEmptyStr p.baths),
    joinStr (jsOrEmptyStr p.sqft),
    joinStr (jsOrEmptyStr p.asking),
    joinStr (jsOrEmptyStr p.arv),
    joinStr (jsOrEmptyStr p.rehab),
    "\"" ++ jsTemplateStr (jsOrEmptyStr p.access) ++ "\"",
    joinStr p.stage,
    nc,
    joinStr (jsOrEmptyStr p.pictures),
    joinStr (jsOrEmptyStr p.contractLink),
    joinStr (jsOrEmptyStr p.investorSheetLink),
    joinStr (jsOrEmptyStr p.lat),
    joinStr (jsOrEmptyStr p.lng),
    joinStr (jsOrEmptyStr p.geoPrecision),
    joinStr (jsOrEmptyStr p.dateAdded),
    (if d = .pnull then "" else joinStr d),
    joinStr (jsOrEmptyStr p.lastUpdated) ]

/-- One row of `exportCSVString` (the body of `properties.map`). -/
def rowCells (dateToMs : JPrim → JSNum) (nowMs : JSNum) (p : Property) :
    Except String (List String) := do
  let nc ← notesCellStr p.notes
  pure (rowCellsAux dateToMs nowMs p nc)

/-- Total form of the notes cell, for string-or-falsy notes. -/
def notesCellPure (v : JPrim) : String :=
  "\"" ++ escQuotes (match jsOrEmptyStr v with | .pstr s => s | _ => "") ++ "\""

/-- Total form of one row. -/
def rowCellsPure (dateToMs : JPrim → JSNum) (nowMs : JSNum) (p : Property) :
    List String :=
  rowCellsAux dateToMs nowMs p (notesCellPure p.notes)

/-- `Array.prototype.map` with a body that may throw. -/
def mapE (f : α → Except String β) : List α → Except String (List β)
  | [] => .ok []
  | x :: xs => do
    let y ← f x
    let ys ← mapE f xs
    pure (y :: ys)

/-- The `exportCSVString` function of `js/logic.js`: header line plus one
comma-joined row per record, all joined with newlines. -/
def exportCSVString (dateToMs : JPrim → JSNum) (nowMs : JSNum)
    (properties : List Property) : Except String String := do
  let rows ← mapE (rowCells dateToMs nowMs) properties
  pure (joinWith "\n" (csvHeader :: rows.map (joinWith ",")))

/-- A value that renders as the empty cell: null, undefined or empty string. -/
def emptyJ (v : JPrim) : Prop := v = .pnull ∨ v = .pundefined ∨ v = .pstr ""

/-- The `i`-th cell of a record's row. -/
def cellAt (dateToMs : JPrim → JSNum) (nowMs : JSNum) (p : Property) (i : ℕ) :
    String := (rowCellsPure dateToMs nowMs p).getD i ""

/-- The spec's CSV-quoting example record. -/
def c9p : Property :=
  { address := .pstr "105 Mohawk St", city := .pstr "Bruin", zip := .pnull,
    access := .pnull, notes := .pstr "Gas heat, central air" }

/-- A clock/date-parse stub (never consulted by the claims' cells). -/
def noClock : JPrim → JSNum := fun _ => JSNum.nan

/-- A record whose address and access both embed double quotes. -/
def c10p : Property :=
  { address := .pstr "He said \"hi\" St", city := .pstr "X",
    access := .pstr "Code \"Z\"", notes := .pnull }

/-! ## Theorems -/

/-- C5: `computeSpread` returns `null` exactly when `arv` or `asking` is falsy
(zero, null, undefined and the empty string are all falsy), and on finite
non-zero numeric inputs it returns `arv - asking - rehab`, a value that may be
negative. -/
theorem computeSpread_null_iff_and_value :
    (∀ arv asking rehab : JPrim,
      (computeSpread arv asking rehab = .pnull ↔
        (truthy arv = false ∨ truthy asking = false))) ∧
    (∀ a b r : ℚ, a ≠ 0 → b ≠ 0 →
      computeSpread (.pnum (.fin a)) (.pnum (.fin b)) (.pnum (.fin r)) =
        .pnum (.fin (a - b - r))) := by
  constructor
  · intro arv asking rehab
    constructor
    · intro h
      by_contra hc
      push_neg at hc
      obtain ⟨h1, h2⟩ := hc
      simp only [Bool.not_eq_false] at h1 h2
      simp [computeSpread, h1, h2] at h
    · rintro (h | h) <;> simp [computeSpread, h]
  · intro a b r ha hb
    have hta : truthy (JPrim.pnum (.fin a)) = true := by simp [truthy, ha]
    have htb : truthy (JPrim.pnum (.fin b)) = true := by simp [truthy, hb]
    by_cases hr : r = 0
    · subst hr
      simp [computeSpread, hta, htb, jsOr, truthy, jsMinus, toNumber, numSub, ha, hb]
    · have htr : truthy (JPrim.pnum (.fin r)) = true := by simp [truthy, hr]
      simp [computeSpread, hta, htb, jsOr, htr, jsMinus, toNumber, numSub, ha, hb]

/-- C5 witness: at `arv = 50`, `asking = 30`, `rehab = 25` the spread is the
negative value `-5`; at `arv = 0` (zero counts as missing) the result is
`null`. -/
theorem computeSpread_null_iff_and_value_witness :
    ((50 : ℚ) ≠ 0 ∧ (30 : ℚ) ≠ 0) ∧
    computeSpread (.pnum (.fin 50)) (.pnum (.fin 30)) (.pnum (.fin 25)) =
      .pnum (.fin (-5)) ∧
    computeSpread (.pnum (.fin 0)) (.pnum (.fin 30)) .pnull = .pnull := by
  refine ⟨⟨by norm_num, by norm_num⟩, ?_, ?_⟩
  · have h := computeSpread_null_iff_and_value.2 50 30 25 (by norm_num) (by norm_num)
    rw [h]
    norm_num
  · exact (computeSpread_null_iff_and_value.1 (.pnum (.fin 0)) (.pnum (.fin 30))
      .pnull).mpr (Or.inl (by decide))

/-- C2: for every collection and every options object, `getFiltered` never
mutates its input: the contents of the caller's array after the call are the
pre-call snapshot, and the value returned is the one computed from that
snapshot alone. -/
theorem getFiltered_never_mutates (properties : List Property) (o : QueryOptions) :
    getFilteredHeap properties o = (getFiltered properties o, properties) := by
  unfold getFilteredHeap getFiltered
  cases hf : filterE (filterPred o) properties with
  | error e => simp [Bind.bind, Except.bind]
  | ok f =>
    cases hs : jsSort (sortCmp o) f with
    | error e => simp [hs, Bind.bind, Except.bind]
    | ok sorted => simp [hs, Bind.bind, Except.bind]

/-- C1: evaluating the code at the failing input.  The claim says every
record with a null sort key appears after every record with a non-null key in
the array `getFiltered` returns; on this two-record collection sorted by
`county` ascending, `getFiltered` instead aborts with a `TypeError` raised by
the comparator, so no such array is returned at all. -/
theorem getFiltered_string_null_sort_throws :
    getFiltered [c1NullCounty, c1ButlerCounty]
      { sortField := "county", sortDirection := "asc" } =
      .error "TypeError: toLowerCase is not a function" := by
  rfl

theorem getProp_eq_elemKey {e : JElem} (h : notNullish e) :
    e.getProp "id" = .ok (elemKey e) := by
  cases e with
  | prim p =>
    cases p with
    | pnull => exact absurd rfl h.1
    | pundefined => exact absurd rfl h.2
    | pbool b => rfl
    | pnum n => rfl
    | pstr s => rfl
  | obj fs => rfl

theorem dedupById_eq_pure :
    ∀ (xs : List JElem) (seen : List JPrim), (∀ e ∈ xs, notNullish e) →
      dedupById xs seen = .ok (dedupPure xs seen)
  | [], _, _ => rfl
  | e :: rest, seen, h => by
    have he := h e (List.mem_cons_self e rest)
    have hrest : ∀ x ∈ rest, notNullish x := fun x hx => h x (List.mem_cons_of_mem e hx)
    unfold dedupById dedupPure
    rw [getProp_eq_elemKey he]
    by_cases hm : elemKey e ∈ seen
    · simp [Bind.bind, Except.bind, hm, dedupById_eq_pure rest seen hrest]
    · simp [Bind.bind, Except.bind, hm,
        dedupById_eq_pure rest (elemKey e :: seen) hrest, pure, Except.pure]

theorem dedupPure_sublist :
    ∀ (xs : List JElem) (seen : List JPrim), List.Sublist (dedupPure xs seen) xs
  | [], _ => List.Sublist.slnil
  | e :: rest, seen => by
    unfold dedupPure
    by_cases hm : elemKey e ∈ seen
    · rw [if_pos hm]
      exact (dedupPure_sublist rest seen).cons e
    · rw [if_neg hm]
      exact (dedupPure_sublist rest (elemKey e :: seen)).cons₂ e

theorem dedupPure_key_not_seen :
    ∀ (xs : List JElem) (seen : List JPrim) (e : JElem),
      e ∈ dedupPure xs seen → elemKey e ∉ seen
  | [], _, e, h => absurd h (List.not_mem_nil e)
  | x :: rest, seen, e, h => by
    unfold dedupPure at h
    by_cases hm : elemKey x ∈ seen
    · rw [if_pos hm] at h
      exact dedupPure_key_not_seen rest seen e h
    · rw [if_neg hm] at h
      rcases List.mem_cons.mp h with rfl | h2
      · exact hm
      · have := dedupPure_key_not_seen rest (elemKey x :: seen) e h2
        exact fun hs => this (List.mem_cons_of_mem _ hs)

theorem dedupPure_keys_nodup :
    ∀ (xs : List JElem) (seen : List JPrim), ((dedupPure xs seen).map elemKey).Nodup
  | [], _ => List.nodup_nil
  | x :: rest, seen => by
    unfold dedupPure
    by_cases hm : elemKey x ∈ seen
    · rw [if_pos hm]
      exact dedupPure_keys_nodup rest seen
    · rw [if_neg hm]
      simp only [List.map_cons, List.nodup_cons]
      refine ⟨?_, dedupPure_keys_nodup rest (elemKey x :: seen)⟩
      intro hmem
      rcases List.mem_map.mp hmem with ⟨e, he, hk⟩
      have := dedupPure_key_not_seen rest (elemKey x :: seen) e he
      exact this (hk ▸ List.mem_cons_self _ _)

theorem dedupPure_complete :
    ∀ (xs : List JElem) (seen : List JPrim) (e : JElem), e ∈ xs →
      elemKey e ∈ seen ∨ elemKey e ∈ (dedupPure xs seen).map elemKey
  | [], _, e, h => absurd h (List.not_mem_nil e)
  | x :: rest, seen, e, h => by
    unfold dedupPure
    by_cases hm : elemKey x ∈ seen
    · rw [if_pos hm]
      rcases List.mem_cons.mp h with rfl | h2
      · exact Or.inl hm
      · exact dedupPure_complete rest seen e h2
    · rw [if_neg hm]
      rcases List.mem_cons.mp h with rfl | h2
      · exact Or.inr (by simp)
      · rcases dedupPure_complete rest (elemKey x :: seen) e h2 with hs | ho
        · rcases List.mem_cons.mp hs with heq | hs2
          · exact Or.inr (by simp [heq])
          · exact Or.inl hs2
        · exact Or.inr (by simp [ho])

theorem dedupPure_first :
    ∀ (xs : List JElem) (seen : List JPrim) (e : JElem), e ∈ dedupPure xs seen →
      ∃ pre post, xs = pre ++ e :: post ∧ elemKey e ∉ seen ∧
        ∀ x ∈ pre, elemKey x ≠ elemKey e
  | [], _, e, h => absurd h (List.not_mem_nil e)
  | x :: rest, seen, e, h => by
    unfold dedupPure at h
    by_cases hm : elemKey x ∈ seen
    · rw [if_pos hm] at h
      obtain ⟨pre, post, hsplit, hns, hpre⟩ := dedupPure_first rest seen e h
      refine ⟨x :: pre, post, by rw [hsplit]; rfl, hns, ?_⟩
      intro y hy
      rcases List.mem_cons.mp hy with rfl | hy2
      · exact fun hk => hns (hk ▸ hm)
      · exact hpre y hy2
    · rw [if_neg hm] at h
      rcases List.mem_cons.mp h with rfl | h2
      · exact ⟨[], rest, rfl, hm, fun y hy => absurd hy (List.not_mem_nil y)⟩
      · obtain ⟨pre, post, hsplit, hns, hpre⟩ :=
          dedupPure_first rest (elemKey x :: seen) e h2
        have hne : elemKey x ≠ elemKey e := fun hk => hns (hk ▸ List.mem_cons_self _ _)
        refine ⟨x :: pre, post, by rw [hsplit]; rfl,
          fun hs => hns (List.mem_cons_of_mem _ hs), ?_⟩
        intro y hy
        rcases List.mem_cons.mp hy with rfl | hy2
        · exact hne
        · exact hpre y hy2

theorem dedupPure_eq_self :
    ∀ (xs : List JElem) (seen : List JPrim), ((xs.map elemKey).Nodup) →
      (∀ e ∈ xs, elemKey e ∉ seen) → dedupPure xs seen = xs
  | [], _, _, _ => rfl
  | x :: rest, seen, hnd, hns => by
    unfold dedupPure
    rw [if_neg (hns x (List.mem_cons_self _ _))]
    rw [List.map_cons] at hnd
    have h1 : elemKey x ∉ rest.map elemKey := (List.nodup_cons.mp hnd).1
    have h2 : (rest.map elemKey).Nodup := (List.nodup_cons.mp hnd).2
    congr 1
    apply dedupPure_eq_self rest (elemKey x :: seen) h2
    intro e he
    simp only [List.mem_cons]
    push_neg
    refine ⟨?_, hns e (List.mem_cons_of_mem _ he)⟩
    intro hk
    exact h1 (hk ▸ List.mem_map_of_mem elemKey he)

theorem jsEvery_of_forall (p : JElem → Except String Bool) :
    ∀ xs : List JElem, (∀ e ∈ xs, p e = .ok true) → jsEvery p xs = .ok true
  | [], _ => rfl
  | x :: rest, h => by
    unfold jsEvery
    rw [h x (List.mem_cons_self _ _)]
    simpa [Bind.bind, Except.bind] using
      jsEvery_of_forall p rest fun e he => h e (List.mem_cons_of_mem _ he)

theorem forall_of_jsEvery (p : JElem → Except String Bool) :
    ∀ xs : List JElem, jsEvery p xs = .ok true → ∀ e ∈ xs, p e = .ok true
  | [], _, e, he => absurd he (List.not_mem_nil e)
  | x :: rest, h, e, he => by
    unfold jsEvery at h
    cases hp : p x with
    | error err => rw [hp] at h; simp [Bind.bind, Except.bind] at h
    | ok b =>
      rw [hp] at h
      cases b with
      | false => simp [Bind.bind, Except.bind, pure, Except.pure] at h
      | true =>
        simp only [Bind.bind, Except.bind, if_true] at h
        rcases List.mem_cons.mp he with rfl | he2
        · exact hp
        · exact forall_of_jsEvery p rest h e he2

theorem goodRec_pred {e : JElem} (h : goodRec e) : predAddrCity e = .ok true := by
  obtain ⟨fs, rfl, ha, hc⟩ := h
  simp [predAddrCity, JElem.getProp, Bind.bind, Except.bind, ha, hc, pure, Except.pure]

theorem pred_goodRec {e : JElem} (h : predAddrCity e = .ok true) : goodRec e := by
  cases e with
  | prim p =>
    cases p <;>
      simp [predAddrCity, JElem.getProp, Bind.bind, Except.bind, truthy,
        pure, Except.pure] at h
  | obj fs =>
    simp only [predAddrCity, JElem.getProp, Bind.bind, Except.bind] at h
    by_cases ha : truthy (lookupField fs "address") = true
    · rw [if_pos ha] at h
      simp only [pure, Except.pure, Except.ok.injEq] at h
      exact ⟨fs, rfl, ha, h⟩
    · rw [if_neg ha] at h
      simp [pure, Except.pure] at h

theorem goodRec_notNullish {e : JElem} (h : goodRec e) : notNullish e := by
  obtain ⟨fs, rfl, -, -⟩ := h
  exact ⟨by simp, by simp⟩

/-- C3: on an array of records that pass the required-field precondition,
`validateImportData` succeeds; the kept list is an order-preserving selection
from the input (a sublist), its ids are pairwise distinct, every input id
survives, each kept record is the first record of the input bearing its id
(so two records sharing a `null` — or `undefined` — id deduplicate against
each other, the dedup key being the literal id value), and
`duplicatesRemoved` is the input length minus the kept length. -/
theorem validateImportData_dedups_by_id (xs : List JElem)
    (h : ∀ e ∈ xs, goodRec e) :
    ∃ kept, validateImportData (.arr xs) =
        .ok (.success kept (xs.length - kept.length)) ∧
      List.Sublist kept xs ∧
      (kept.map elemKey).Nodup ∧
      (∀ e ∈ xs, elemKey e ∈ kept.map elemKey) ∧
      (∀ e ∈ kept, ∃ pre post, xs = pre ++ e :: post ∧
        ∀ x ∈ pre, elemKey x ≠ elemKey e) := by
  have hnn : ∀ e ∈ xs, notNullish e := fun e he => goodRec_notNullish (h e he)
  have hev : jsEvery predAddrCity xs = .ok true :=
    jsEvery_of_forall _ xs fun e he => goodRec_pred (h e he)
  have hdd : dedupById xs [] = .ok (dedupPure xs []) := dedupById_eq_pure xs [] hnn
  refine ⟨dedupPure xs [], ?_, dedupPure_sublist xs [],
    dedupPure_keys_nodup xs [], ?_, ?_⟩
  · simp [validateImportData, hev, hdd, Bind.bind, Except.bind, pure, Except.pure]
  · intro e he
    rcases dedupPure_complete xs [] e he with hs | ho
    · exact absurd hs (List.not_mem_nil _)
    · exact ho
  · intro e he
    obtain ⟨pre, post, hsplit, -, hpre⟩ := dedupPure_first xs [] e he
    exact ⟨pre, post, hsplit, hpre⟩

/-- C3 witness: importing ids "1", "1", "2" keeps two records — the first
occurrence of id "1" (address "123 Main St") — with `duplicatesRemoved = 1`;
two records that both have `id = null` count as duplicates of each other. -/
theorem validateImportData_dedups_by_id_witness :
    goodRec c3r1 ∧
    (∃ kept, validateImportData (.arr [c3r1, c3r2, c3r3]) =
        .ok (.success kept ([c3r1, c3r2, c3r3].length - kept.length)) ∧
      List.Sublist kept [c3r1, c3r2, c3r3] ∧
      (kept.map elemKey).Nodup ∧
      (∀ e ∈ [c3r1, c3r2, c3r3], elemKey e ∈ kept.map elemKey) ∧
      (∀ e ∈ kept, ∃ pre post, [c3r1, c3r2, c3r3] = pre ++ e :: post ∧
        ∀ x ∈ pre, elemKey x ≠ elemKey e)) ∧
    validateImportData (.arr [c3r1, c3r2, c3r3]) = .ok (.success [c3r1, c3r3] 1) ∧
    validateImportData (.arr [c3n1, c3n2]) = .ok (.success [c3n1] 1) := by
  refine ⟨⟨_, rfl, by decide, by decide⟩,
    validateImportData_dedups_by_id _ ?_, by rfl, by rfl⟩
  intro e he
  simp only [List.mem_cons, List.not_mem_nil, or_false] at he
  rcases he with rfl | rfl | rfl <;> exact ⟨_, rfl, by decide, by decide⟩

/-- C7: `validateImportData` is idempotent on deduplication — rerunning it on
the `properties` array of a successful run succeeds with the same array and
`duplicatesRemoved = 0`. -/
theorem validateImportData_idempotent (xs kept : List JElem) (d : Nat)
    (h : validateImportData (.arr xs) = .ok (.success kept d)) :
    validateImportData (.arr kept) = .ok (.success kept 0) := by
  simp only [validateImportData] at h
  cases hev : jsEvery predAddrCity xs with
  | error e => rw [hev] at h; simp [Bind.bind, Except.bind] at h
  | ok b =>
    rw [hev] at h
    cases b with
    | false => simp [Bind.bind, Except.bind, pure, Except.pure] at h
    | true =>
      simp only [Bind.bind, Except.bind, if_true] at h
      cases hdd : dedupById xs [] with
      | error e => rw [hdd] at h; simp at h
      | ok u =>
        rw [hdd] at h
        simp only [pure, Except.pure, Except.ok.injEq, ImportResult.success.injEq] at h
        obtain ⟨hu, -⟩ := h
        have hall : ∀ e ∈ xs, predAddrCity e = .ok true := forall_of_jsEvery _ xs hev
        have hnn : ∀ e ∈ xs, notNullish e := fun e he =>
          goodRec_notNullish (pred_goodRec (hall e he))
        have hpp := dedupById_eq_pure xs [] hnn
        rw [hdd] at hpp
        have hkeq : kept = dedupPure xs [] := by
          rw [← hu]
          exact Except.ok.inj hpp
        have hsub : List.Sublist kept xs := by rw [hkeq]; exact dedupPure_sublist xs []
        have hmem : ∀ e ∈ kept, e ∈ xs := fun e he => hsub.subset he
        have hevk : jsEvery predAddrCity kept = .ok true :=
          jsEvery_of_forall _ kept fun e he => hall e (hmem e he)
        have hnd : (kept.map elemKey).Nodup := by
          rw [hkeq]; exact dedupPure_keys_nodup xs []
        have hself : dedupPure kept [] = kept :=
          dedupPure_eq_self kept [] hnd fun e _ => List.not_mem_nil _
        have hddk : dedupById kept [] = .ok kept := by
          rw [dedupById_eq_pure kept [] fun e he => hnn e (hmem e he), hself]
        simp [validateImportData, hevk, hddk, Bind.bind, Except.bind,
          pure, Except.pure, Nat.sub_self]

/-- C7 witness: a successful import of ["1", "1"] keeps one record, and
rerunning on the kept array removes nothing. -/
theorem validateImportData_idempotent_witness :
    validateImportData (.arr [c3r1, c3r2]) = .ok (.success [c3r1] 1) ∧
    validateImportData (.arr [c3r1]) = .ok (.success [c3r1] 0) :=
  ⟨by rfl, validateImportData_idempotent [c3r1, c3r2] [c3r1] 1 (by rfl)⟩

/-- C4 counterexample: an array containing `null` makes `validateImportData`
throw a `TypeError` (reading `.address` of `null` inside `every`), and
`validatePropertyData(null)` throws the same way — refuting the claim that
the two functions never throw for any input. -/
theorem validators_throw_on_null :
    validateImportData (.arr [.prim .pnull]) =
      .error "TypeError: Cannot read properties of null (reading address)" ∧
    validatePropertyData (.prim .pnull) =
      .error "TypeError: Cannot read properties of null (reading address)" :=
  ⟨rfl, rfl⟩

theorem predAddrCity_total {e : JElem} (h : notNullish e) :
    ∃ b, predAddrCity e = .ok b := by
  cases e with
  | prim p =>
    cases p with
    | pnull => exact absurd rfl h.1
    | pundefined => exact absurd rfl h.2
    | pbool b => exact ⟨false, rfl⟩
    | pnum n => exact ⟨false, rfl⟩
    | pstr s => exact ⟨false, rfl⟩
  | obj fs =>
    by_cases ha : truthy (lookupField fs "address") = true
    · exact ⟨truthy (lookupField fs "city"),
        by simp [predAddrCity, JElem.getProp, Bind.bind, Except.bind, ha,
          pure, Except.pure]⟩
    · exact ⟨false,
        by simp [predAddrCity, JElem.getProp, Bind.bind, Except.bind, ha,
          pure, Except.pure]⟩

theorem jsEvery_total :
    ∀ xs : List JElem, (∀ e ∈ xs, notNullish e) →
      ∃ b, jsEvery predAddrCity xs = .ok b
  | [], _ => ⟨true, rfl⟩
  | x :: rest, h => by
    obtain ⟨b, hb⟩ := predAddrCity_total (h x (List.mem_cons_self _ _))
    cases b with
    | false =>
      exact ⟨false, by simp [jsEvery, hb, Bind.bind, Except.bind, pure, Except.pure]⟩
    | true =>
      obtain ⟨b2, hb2⟩ := jsEvery_total rest fun e he => h e (List.mem_cons_of_mem _ he)
      exact ⟨b2, by simp [jsEvery, hb, hb2, Bind.bind, Except.bind]⟩

theorem getProp_eq_getPropD {d : JSInput} (k : String) (h : inputNotNullish d) :
    d.getProp k = .ok (getPropD d k) := by
  cases d with
  | prim p =>
    cases p with
    | pnull => exact absurd rfl h.1
    | pundefined => exact absurd rfl h.2
    | pbool b => rfl
    | pnum n => rfl
    | pstr s => rfl
  | obj fs => rfl
  | arr xs => rfl

theorem requiredCheck_ok {v : JPrim} (msg : String) (h : strOrFalsy v) :
    requiredCheck v msg = .ok (reqErrs v msg) := by
  rcases h with h | ⟨s, rfl⟩
  · simp [requiredCheck, reqErrs, h]
  · by_cases ht : truthy (.pstr s) = false
    · simp [requiredCheck, reqErrs, ht]
    · simp only [requiredCheck, reqErrs]
      rw [if_neg ht, if_neg ht]

/-- C4 amended: the two validators report data-shape failures through return
values and never throw on the input shapes they support — any non-array value
to `validateImportData` gets the typed failure result, any array without
`null`/`undefined` elements is processed to a result, and
`validatePropertyData` returns its violation list whenever the input itself
is not `null`/`undefined` and its `address`/`city` values are strings or
falsy.  (Outside these shapes the counterexample applies: a `null` array
element or a `null` input raises a `TypeError`.) -/
theorem validators_no_throw_amended :
    (∀ p : JPrim, validateImportData (.prim p) =
      .ok (.failure "Expected array of properties")) ∧
    (∀ fs, validateImportData (.obj fs) =
      .ok (.failure "Expected array of properties")) ∧
    (∀ xs : List JElem, (∀ e ∈ xs, notNullish e) →
      ∃ r, validateImportData (.arr xs) = .ok r) ∧
    (∀ d : JSInput, inputNotNullish d → strOrFalsy (getPropD d "address") →
      strOrFalsy (getPropD d "city") →
      ∃ errs, validatePropertyData d = .ok errs) := by
  refine ⟨fun p => rfl, fun fs => rfl, ?_, ?_⟩
  · intro xs hnn
    obtain ⟨b, hb⟩ := jsEvery_total xs hnn
    cases b with
    | false =>
      exact ⟨.failure "Missing required fields (address, city)",
        by simp [validateImportData, hb, Bind.bind, Except.bind, pure, Except.pure]⟩
    | true =>
      exact ⟨.success (dedupPure xs []) (xs.length - (dedupPure xs []).length),
        by simp [validateImportData, hb, dedupById_eq_pure xs [] hnn,
          Bind.bind, Except.bind, pure, Except.pure]⟩
  · intro d hd ha hc
    refine ⟨reqErrs (getPropD d "address") "Address is required" ++
      reqErrs (getPropD d "city") "City is required" ++
      rangeCheck (getPropD d "beds") 0 50 "Beds must be between 0 and 50" ++
      rangeCheck (getPropD d "baths") 0 50 "Baths must be between 0 and 50" ++
      rangeCheck (getPropD d "sqft") 0 1000000
        "Square footage must be between 0 and 1,000,000" ++
      rangeCheck (getPropD d "asking") 0 100000000
        "Asking price must be between $0 and $100,000,000" ++
      rangeCheck (getPropD d "arv") 0 100000000
        "ARV must be between $0 and $100,000,000" ++
      rangeCheck (getPropD d "rehab") 0 100000000
        "Rehab cost must be between $0 and $100,000,000" ++
      urlCheck (getPropD d "pictures") "Pictures link must be a valid URL" ++
      urlCheck (getPropD d "contractLink") "Contract link must be a valid URL" ++
      urlCheck (getPropD d "investorSheetLink")
        "Investor sheet link must be a valid URL" ++
      zipCheck (getPropD d "zip")
        "ZIP code must be 5 digits (optional 4-digit extension)", ?_⟩
    simp [validatePropertyData, getProp_eq_getPropD _ hd, requiredCheck_ok _ ha,
      requiredCheck_ok _ hc, Bind.bind, Except.bind, pure, Except.pure]

/-- C4 witness: a string input is rejected with the typed failure; an array
of supported elements and an object with a null address both produce results
without throwing. -/
theorem validators_no_throw_amended_witness :
    validateImportData (.prim (.pstr "not an array")) =
      .ok (.failure "Expected array of properties") ∧
    (∃ r, validateImportData (.arr [c3r1, .prim (.pstr "x")]) = .ok r) ∧
    (∃ errs, validatePropertyData (.obj [("address", .pnull)]) = .ok errs) := by
  refine ⟨validators_no_throw_amended.1 _,
    validators_no_throw_amended.2.2.1 _ (by decide),
    validators_no_throw_amended.2.2.2 _ (by decide) (Or.inl rfl) (Or.inl rfl)⟩

theorem reqErrs_mem {v : JPrim} {msg x : String} (h : x ∈ reqErrs v msg) :
    x = msg := by
  unfold reqErrs at h
  split at h
  · simpa using h
  · split at h
    · split at h
      · simpa using h
      · exact absurd h (List.not_mem_nil x)
    · exact absurd h (List.not_mem_nil x)

theorem rangeCheck_mem {v : JPrim} {lo hi : ℚ} {msg x : String}
    (h : x ∈ rangeCheck v lo hi msg) : x = msg := by
  unfold rangeCheck at h
  by_cases h1 : v = .pnull
  · rw [if_pos h1] at h
    exact absurd h (List.not_mem_nil x)
  · rw [if_neg h1] at h
    by_cases h2 : (jsLt v (.pnum (.fin lo)) || jsGt v (.pnum (.fin hi))) = true
    · rw [if_pos h2] at h
      simpa using h
    · rw [if_neg h2] at h
      exact absurd h (List.not_mem_nil x)

theorem urlCheck_mem {v : JPrim} {msg x : String} (h : x ∈ urlCheck v msg) :
    x = msg := by
  unfold urlCheck at h
  by_cases h1 : (truthy v && !isValidURL v) = true
  · rw [if_pos h1] at h
    simpa using h
  · rw [if_neg h1] at h
    exact absurd h (List.not_mem_nil x)

theorem zipCheck_mem {v : JPrim} {msg x : String} (h : x ∈ zipCheck v msg) :
    x = msg := by
  unfold zipCheck at h
  by_cases h1 : (truthy v && !zipMatch (jsTemplateStr v)) = true
  · rw [if_pos h1] at h
    simpa using h
  · rw [if_neg h1] at h
    exact absurd h (List.not_mem_nil x)

theorem count_zero_of_all_eq {l : List String} {m c : String}
    (hall : ∀ x ∈ l, x = m) (hne : c ≠ m) : l.count c = 0 :=
  List.count_eq_zero.mpr fun hc => hne (hall c hc)

theorem reqErrs_count_ne (v : JPrim) (msg c : String) (hne : c ≠ msg) :
    (reqErrs v msg).count c = 0 :=
  count_zero_of_all_eq (fun _ hx => reqErrs_mem hx) hne

theorem rangeCheck_count_ne (v : JPrim) (lo hi : ℚ) (msg c : String)
    (hne : c ≠ msg) : (rangeCheck v lo hi msg).count c = 0 :=
  count_zero_of_all_eq (fun _ hx => rangeCheck_mem hx) hne

theorem urlCheck_count_ne (v : JPrim) (msg c : String) (hne : c ≠ msg) :
    (urlCheck v msg).count c = 0 :=
  count_zero_of_all_eq (fun _ hx => urlCheck_mem hx) hne

theorem zipCheck_count_ne (v : JPrim) (msg c : String) (hne : c ≠ msg) :
    (zipCheck v msg).count c = 0 :=
  count_zero_of_all_eq (fun _ hx => zipCheck_mem hx) hne

theorem rangeCheck_count_self (v : JPrim) (lo hi : ℚ) (msg : String) :
    (rangeCheck v lo hi msg).count msg =
      if v ≠ .pnull ∧ (jsLt v (.pnum (.fin lo)) || jsGt v (.pnum (.fin hi))) = true
      then 1 else 0 := by
  unfold rangeCheck
  by_cases h1 : v = .pnull
  · rw [if_pos h1, if_neg (by simp [h1])]
    simp
  · rw [if_neg h1]
    by_cases h2 : (jsLt v (.pnum (.fin lo)) || jsGt v (.pnum (.fin hi))) = true
    · rw [if_pos h2, if_pos ⟨h1, h2⟩]
      simp
    · rw [if_neg h2, if_neg (by simp [h2])]
      simp

/-- C8: on any candidate object whose `address`/`city` values are strings or
falsy, `validatePropertyData` runs all twelve checks and returns their
accumulated violations (no short-circuiting), and the message
"Beds must be between 0 and 50" occurs exactly once when `beds` is non-null
and lies outside the inclusive bounds (`beds < 0` or `beds > 50`), and not at
all otherwise — in particular `beds = 0` and `beds = 50` pass. -/
theorem validatePropertyData_beds_inclusive (fs : List (String × JPrim))
    (haddr : strOrFalsy (lookupField fs "address"))
    (hcity : strOrFalsy (lookupField fs "city")) :
    validatePropertyData (.obj fs) = .ok (propErrsOf fs) ∧
    (propErrsOf fs).count "Beds must be between 0 and 50" =
      (if lookupField fs "beds" ≠ .pnull ∧
          (jsLt (lookupField fs "beds") (.pnum (.fin 0)) ||
           jsGt (lookupField fs "beds") (.pnum (.fin 50))) = true
       then 1 else 0) := by
  constructor
  · simp [validatePropertyData, JSInput.getProp, requiredCheck_ok _ haddr,
      requiredCheck_ok _ hcity, Bind.bind, Except.bind, pure, Except.pure,
      propErrsOf]
  · have hb := rangeCheck_count_self (lookupField fs "beds") 0 50
      "Beds must be between 0 and 50"
    have z1 := reqErrs_count_ne (lookupField fs "address") "Address is required"
      "Beds must be between 0 and 50" (by decide)
    have z2 := reqErrs_count_ne (lookupField fs "city") "City is required"
      "Beds must be between 0 and 50" (by decide)
    have z3 := rangeCheck_count_ne (lookupField fs "baths") 0 50
      "Baths must be between 0 and 50" "Beds must be between 0 and 50" (by decide)
    have z4 := rangeCheck_count_ne (lookupField fs "sqft") 0 1000000
      "Square footage must be between 0 and 1,000,000"
      "Beds must be between 0 and 50" (by decide)
    have z5 := rangeCheck_count_ne (lookupField fs "asking") 0 100000000
      "Asking price must be between $0 and $100,000,000"
      "Beds must be between 0 and 50" (by decide)
    have z6 := rangeCheck_count_ne (lookupField fs "arv") 0 100000000
      "ARV must be between $0 and $100,000,000"
      "Beds must be between 0 and 50" (by decide)
    have z7 := rangeCheck_count_ne (lookupField fs "rehab") 0 100000000
      "Rehab cost must be between $0 and $100,000,000"
      "Beds must be between 0 and 50" (by decide)
    have z8 := urlCheck_count_ne (lookupField fs "pictures")
      "Pictures link must be a valid URL" "Beds must be between 0 and 50" (by decide)
    have z9 := urlCheck_count_ne (lookupField fs "contractLink")
      "Contract link must be a valid URL" "Beds must be between 0 and 50" (by decide)
    have z10 := urlCheck_count_ne (lookupField fs "investorSheetLink")
      "Investor sheet link must be a valid URL" "Beds must be between 0 and 50"
      (by decide)
    have z11 := zipCheck_count_ne (lookupField fs "zip")
      "ZIP code must be 5 digits (optional 4-digit extension)"
      "Beds must be between 0 and 50" (by decide)
    simp [propErrsOf, List.count_append, z1, z2, z3, z4, z5, z6, z7, z8, z9,
      z10, z11, hb]

/-- C8 witness: `beds = 0` and `beds = 50` produce no beds violation,
`beds = -1` and `beds = 51` produce the message exactly once; with an empty
address as well, both violations accumulate. -/
theorem validatePropertyData_beds_inclusive_witness :
    (propErrsOf (c8fs (.pnum (.fin 0)))).count "Beds must be between 0 and 50" = 0 ∧
    (propErrsOf (c8fs (.pnum (.fin 50)))).count "Beds must be between 0 and 50" = 0 ∧
    (propErrsOf (c8fs (.pnum (.fin (-1))))).count "Beds must be between 0 and 50" = 1 ∧
    (propErrsOf (c8fs (.pnum (.fin 51)))).count "Beds must be between 0 and 50" = 1 ∧
    validatePropertyData (.obj (c8fs (.pnum (.fin 51)))) =
      .ok ["Beds must be between 0 and 50"] ∧
    validatePropertyData
        (.obj [("address", .pstr ""), ("city", .pstr "C"), ("beds", .pnum (.fin 51))]) =
      .ok ["Address is required", "Beds must be between 0 and 50"] := by
  refine ⟨?_, ?_, ?_, ?_, ?_, ?_⟩
  · rw [(validatePropertyData_beds_inclusive (c8fs (.pnum (.fin 0)))
      (Or.inr ⟨_, rfl⟩) (Or.inr ⟨_, rfl⟩)).2]
    decide
  · rw [(validatePropertyData_beds_inclusive (c8fs (.pnum (.fin 50)))
      (Or.inr ⟨_, rfl⟩) (Or.inr ⟨_, rfl⟩)).2]
    decide
  · rw [(validatePropertyData_beds_inclusive (c8fs (.pnum (.fin (-1))))
      (Or.inr ⟨_, rfl⟩) (Or.inr ⟨_, rfl⟩)).2]
    decide
  · rw [(validatePropertyData_beds_inclusive (c8fs (.pnum (.fin 51)))
      (Or.inr ⟨_, rfl⟩) (Or.inr ⟨_, rfl⟩)).2]
    decide
  · rfl
  · rfl

/-- Sanity check of the parser embedding against the spec's worked example. -/
theorem parseBlock_spec_example :
    parseBlock ("105 Mohawk St, Bruin, PA 16022\nButler County\n2 bed 2 bath\nAsking 29.9k\nARV 80k\nAccess: 3333 front door\nhttps://www.dropbox.com/x\nNo heat") =
      { address := "105 Mohawk St", city := "Bruin", zip := "16022",
        county := "Butler", beds := some 2, baths := some ⟨2, 0⟩,
        asking := some 29900, access := some "3333 front door",
        pictures := some "https://www.dropbox.com/x", arv := some 80000,
        notes := "No heat" } := by rfl

/-- Sanity check: the ARV-without-K example of the spec. -/
theorem parseBlock_arv_without_k_example :
    parseBlock "123 Main St, Chester, PA\nARV $275,000" =
    { address := "123 Main St", city := "Chester", zip := "", county := "",
      beds := none, baths := none, asking := none, access := none,
      pictures := none, arv := none, notes := "ARV $275,000" } := by rfl

theorem parseTail_preserves_arv_asking (st : ParseState) (line lower : String) :
    (parseTail st line lower).arv = st.arv ∧
    (parseTail st line lower).asking = st.asking := by
  unfold parseTail noteLine
  split
  · exact ⟨rfl, rfl⟩
  · split
    · split
      · exact ⟨rfl, rfl⟩
      · split
        · exact ⟨rfl, rfl⟩
        · exact ⟨rfl, rfl⟩
    · split
      · exact ⟨rfl, rfl⟩
      · exact ⟨rfl, rfl⟩

/-- C6 counterexample: the line "ARV TBD lockbox" contains "arv", has no
K-suffixed number, is longer than three characters and is not consumed by
the address, county or beds/baths rules — the claim says it is appended to
notes.  Instead the access rule (triggered by "lockbox") consumes it, so the
notes stay empty and the line lands in `access` (while, as claimed, neither
`arv` nor `asking` is set). -/
theorem parseBlock_arv_line_agrees_except_notes :
    parseBlock "ARV TBD lockbox" =
      { address := "", city := "", zip := "", county := "", beds := none,
        baths := none, asking := none, access := some "ARV TBD lockbox",
        pictures := none, arv := none, notes := "" } ∧
    containsStr (lowerStr "ARV TBD lockbox") "arv" = true ∧
    containsStr (lowerStr "ARV TBD lockbox") "county" = false ∧
    matchAddrFull "ARV TBD lockbox" = none ∧
    matchAddrLoose "ARV TBD lockbox" = none ∧
    findBeds "ARV TBD lockbox" = none ∧
    findBaths "ARV TBD lockbox" = none ∧
    findKNum "ARV TBD lockbox" = none ∧
    3 < "ARV TBD lockbox".data.length ∧
    (parseBlock "ARV TBD lockbox").notes = "" := by
  exact ⟨by rfl, by rfl, by rfl, by rfl, by rfl, by rfl, by rfl, by rfl,
    by decide, by rfl⟩

/-- C6 (amended): on any line not consumed by the address, county or
beds/baths rules that contains "arv" or "worth" (case-insensitively): if the
line has a K-suffixed number, `arv` is set to `round(number × 1000)` and
nothing else changes — in particular the line is never treated as an asking
price; if it has no K-suffixed number, neither `arv` nor `asking` is set
from it, and — unless the access rule or the picture rule consumes it — a
line longer than three characters is appended to notes. -/
theorem parseLine_arv_rule (st : ParseState) (line : String)
    (haddr : st.address ≠ "" ∨
      (matchAddrFull line = none ∧ matchAddrLoose line = none))
    (hcounty : containsStr (lowerStr line) "county" = false)
    (hbeds : findBeds line = none) (hbaths : findBaths line = none)
    (htrig : (containsStr (lowerStr line) "arv" ||
      containsStr (lowerStr line) "worth") = true) :
    (∀ kv, findKNum line = some kv →
      parseLine st line = { st with arv := some (kRoundOf kv) }) ∧
    (findKNum line = none →
      (parseLine st line).arv = st.arv ∧ (parseLine st line).asking = st.asking ∧
      (accessTrigger (lowerStr line) = false →
        (picTrigger line (lowerStr line) = false ∨ findURL line = none) →
        3 < line.data.length →
        parseLine st line = { st with notes := st.notes ++ [line] })) := by
  have hred : parseLine st line = parseRest st line (lowerStr line) := by
    rcases haddr with h | ⟨hf, hl⟩
    · simp only [parseLine]
      rw [if_neg h]
    · by_cases ha : st.address = ""
      · simp only [parseLine, hf, hl]
        rw [if_pos ha]
      · simp only [parseLine]
        rw [if_neg ha]
  rw [hred]
  unfold parseRest
  rw [hcounty, hbeds, hbaths]
  simp only [Option.isSome_none, Bool.or_false, Bool.or_self, if_neg,
    Bool.false_eq_true, not_false_eq_true, htrig]
  constructor
  · intro kv hkv
    rw [hkv]
    simp
  · intro hkv
    rw [hkv]
    simp only [Option.isSome_none, Bool.and_false, Bool.false_eq_true,
      not_false_eq_true, if_neg]
    refine ⟨(parseTail_preserves_arv_asking st line (lowerStr line)).1,
      (parseTail_preserves_arv_asking st line (lowerStr line)).2, ?_⟩
    intro hacc hpic hlen
    unfold parseTail noteLine
    rw [hacc]
    simp only [Bool.false_eq_true, not_false_eq_true, if_neg]
    rcases hpic with hp | hu
    · rw [hp]
      simp only [Bool.false_eq_true, not_false_eq_true, if_neg]
      rw [if_pos hlen]
    · by_cases hp : picTrigger line (lowerStr line) = true
      · rw [hp, hu]
        simp only [if_true]
        rw [if_pos hlen]
      · rw [Bool.not_eq_true] at hp
        rw [hp]
        simp only [Bool.false_eq_true, not_false_eq_true, if_neg]
        rw [if_pos hlen]

/-- C6 witness: with the address already set, the line "ARV $275,000" (no
K-number) leaves `arv` and `asking` untouched and becomes a note — matching
the spec's example where `arv` stays null — while "Worth 80k" sets
`arv = 80000` without touching `asking`. -/
theorem parseLine_arv_rule_witness :
    (parseLine c6st "ARV $275,000").arv = none ∧
    (parseLine c6st "ARV $275,000").asking = none ∧
    parseLine c6st "ARV $275,000" =
      { c6st with notes := c6st.notes ++ ["ARV $275,000"] } ∧
    parseLine c6st "Worth 80k" = { c6st with arv := some 80000 } := by
  have h := parseLine_arv_rule c6st "ARV $275,000" (Or.inl (by decide))
    (by rfl) (by rfl) (by rfl) (by rfl)
  have h2 := h.2 (by rfl)
  have hw := parseLine_arv_rule c6st "Worth 80k" (Or.inl (by decide))
    (by rfl) (by rfl) (by rfl) (by rfl)
  refine ⟨by rw [h2.1]; rfl, by rw [h2.2.1]; rfl,
    h2.2.2 (by rfl) (Or.inl (by rfl)) (by decide), ?_⟩
  have := hw.1 (['8', '0'], []) (by rfl)
  rw [this]
  rfl

theorem notesCellStr_ok (v : JPrim)
    (h : truthy v = false ∨ ∃ s, v = .pstr s) :
    notesCellStr v = .ok (notesCellPure v) := by
  rcases h with h | ⟨s, rfl⟩
  · unfold notesCellStr notesCellPure jsOrEmptyStr
    rw [if_neg (by simp [h])]
  · unfold notesCellStr notesCellPure jsOrEmptyStr
    by_cases ht : truthy (.pstr s) = true
    · rw [if_pos ht]
    · rw [if_neg ht]

theorem rowCells_ok (dateToMs : JPrim → JSNum) (nowMs : JSNum) (p : Property)
    (h : truthy p.notes = false ∨ ∃ s, p.notes = .pstr s) :
    rowCells dateToMs nowMs p = .ok (rowCellsPure dateToMs nowMs p) := by
  unfold rowCells rowCellsPure
  rw [notesCellStr_ok p.notes h]
  rfl

theorem escQAux_count : ∀ l : List Char, (escQAux l).count '"' = 2 * l.count '"'
  | [] => rfl
  | c :: cs => by
    unfold escQAux
    by_cases hc : c = '"'
    · rw [if_pos hc]
      subst hc
      simp [List.count_cons, escQAux_count cs]
      omega
    · rw [if_neg hc]
      simp [List.count_cons, escQAux_count cs, beq_iff_eq, hc]

theorem escQAux_length : ∀ l : List Char, (escQAux l).length = l.length + l.count '"'
  | [] => rfl
  | c :: cs => by
    unfold escQAux
    by_cases hc : c = '"'
    · rw [if_pos hc]
      subst hc
      simp [List.length_cons, List.count_cons, escQAux_length cs]
      omega
    · rw [if_neg hc]
      simp [List.length_cons, List.count_cons, escQAux_length cs, beq_iff_eq, hc]
      omega

theorem escQuotes_countQuote (s : String) :
    countQuote (escQuotes s) = 2 * countQuote s :=
  escQAux_count s.data

/-- A cell `"s"` with an undoubled quote inside differs from the properly
escaped cell `"escQuotes s"`: their lengths differ by the number of quotes. -/
theorem wrap_ne_escaped {s : String} (h : countQuote s ≠ 0) :
    ("\"" ++ s ++ "\"" : String) ≠ "\"" ++ escQuotes s ++ "\"" := by
  cases s with
  | mk ls =>
    intro he
    have hlen : ((['"'] ++ ls) ++ ['"']).length =
        ((['"'] ++ escQAux ls) ++ ['"']).length :=
      congrArg (fun t : String => t.data.length) he
    simp only [List.length_append, List.length_cons, List.length_nil,
      escQAux_length] at hlen
    have hc : countQuote (String.mk ls) = ls.count '"' := rfl
    rw [hc] at h
    omega

theorem cellAt0 (dtm : JPrim → JSNum) (now : JSNum) (p : Property) :
    cellAt dtm now p 0 = "\"" ++ jsTemplateStr p.address ++ "\"" := rfl

theorem cellAt1 (dtm : JPrim → JSNum) (now : JSNum) (p : Property) :
    cellAt dtm now p 1 = joinStr p.city := rfl

theorem cellAt2 (dtm : JPrim → JSNum) (now : JSNum) (p : Property) :
    cellAt dtm now p 2 = joinStr (jsOrEmptyStr p.zip) := rfl

theorem cellAt3 (dtm : JPrim → JSNum) (now : JSNum) (p : Property) :
    cellAt dtm now p 3 = joinStr (jsOrEmptyStr p.county) := rfl

theorem cellAt4 (dtm : JPrim → JSNum) (now : JSNum) (p : Property) :
    cellAt dtm now p 4 = joinStr p.type := rfl

theorem cellAt5 (dtm : JPrim → JSNum) (now : JSNum) (p : Property) :
    cellAt dtm now p 5 = joinStr (jsOrEmptyStr p.beds) := rfl

theorem cellAt6 (dtm : JPrim → JSNum) (now : JSNum) (p : Property) :
    cellAt dtm now p 6 = joinStr (jsOrEmptyStr p.baths) := rfl

theorem cellAt7 (dtm : JPrim → JSNum) (now : JSNum) (p : Property) :
    cellAt dtm now p 7 = joinStr (jsOrEmptyStr p.sqft) := rfl

theorem cellAt8 (dtm : JPrim → JSNum) (now : JSNum) (p : Property) :
    cellAt dtm now p 8 = joinStr (jsOrEmptyStr p.asking) := rfl

theorem cellAt9 (dtm : JPrim → JSNum) (now : JSNum) (p : Property) :
    cellAt dtm now p 9 = joinStr (jsOrEmptyStr p.arv) := rfl

theorem cellAt10 (dtm : JPrim → JSNum) (now : JSNum) (p : Property) :
    cellAt dtm now p 10 = joinStr (jsOrEmptyStr p.rehab) := rfl

theorem cellAt11 (dtm : JPrim → JSNum) (now : JSNum) (p : Property) :
    cellAt dtm now p 11 = "\"" ++ jsTemplateStr (jsOrEmptyStr p.access) ++ "\"" := rfl

theorem cellAt12 (dtm : JPrim → JSNum) (now : JSNum) (p : Property) :
    cellAt dtm now p 12 = joinStr p.stage := rfl

theorem cellAt13 (dtm : JPrim → JSNum) (now : JSNum) (p : Property) :
    cellAt dtm now p 13 = notesCellPure p.notes := rfl

theorem cellAt14 (dtm : JPrim → JSNum) (now : JSNum) (p : Property) :
    cellAt dtm now p 14 = joinStr (jsOrEmptyStr p.pictures) := rfl

theorem cellAt15 (dtm : JPrim → JSNum) (now : JSNum) (p : Property) :
    cellAt dtm now p 15 = joinStr (jsOrEmptyStr p.contractLink) := rfl

theorem cellAt16 (dtm : JPrim → JSNum) (now : JSNum) (p : Property) :
    cellAt dtm now p 16 = joinStr (jsOrEmptyStr p.investorSheetLink) := rfl

theorem cellAt17 (dtm : JPrim → JSNum) (now : JSNum) (p : Property) :
    cellAt dtm now p 17 = joinStr (jsOrEmptyStr p.lat) := rfl

theorem cellAt18 (dtm : JPrim → JSNum) (now : JSNum) (p : Property) :
    cellAt dtm now p 18 = joinStr (jsOrEmptyStr p.lng) := rfl

theorem cellAt19 (dtm : JPrim → JSNum) (now : JSNum) (p : Property) :
    cellAt dtm now p 19 = joinStr (jsOrEmptyStr p.geoPrecision) := rfl

theorem cellAt20 (dtm : JPrim → JSNum) (now : JSNum) (p : Property) :
    cellAt dtm now p 20 = joinStr (jsOrEmptyStr p.dateAdded) := rfl

theorem cellAt21 (dtm : JPrim → JSNum) (now : JSNum) (p : Property) :
    cellAt dtm now p 21 =
      (if getDaysSinceAdded dtm now p.dateAdded = .pnull then ""
       else joinStr (getDaysSinceAdded dtm now p.dateAdded)) := rfl

theorem cellAt22 (dtm : JPrim → JSNum) (now : JSNum) (p : Property) :
    cellAt dtm now p 22 = joinStr (jsOrEmptyStr p.lastUpdated) := rfl

/-- C9: for every record (with notes a string or absent, which is when the
exporter does not throw), the row has 23 cells; the `address`, `access` and
`notes` cells are always wrapped in double quotes — with the embedded quotes
of `notes` doubled — an absent `access` giving the quoted empty cell; and
every other column is emitted unquoted, rendering as the empty string (not a
dash) when the value is null, undefined or empty, and as the verbatim string
when it is a non-empty string. -/
theorem exportCSV_cell_quoting (dateToMs : JPrim → JSNum) (nowMs : JSNum)
    (p : Property) (hnotes : truthy p.notes = false ∨ ∃ s, p.notes = .pstr s) :
    rowCells dateToMs nowMs p = .ok (rowCellsPure dateToMs nowMs p) ∧
    (rowCellsPure dateToMs nowMs p).length = 23 ∧
    (∀ s, p.address = .pstr s →
      cellAt dateToMs nowMs p 0 = "\"" ++ s ++ "\"") ∧
    (emptyJ p.access → cellAt dateToMs nowMs p 11 = "\"\"") ∧
    (∀ s, p.access = .pstr s → s ≠ "" →
      cellAt dateToMs nowMs p 11 = "\"" ++ s ++ "\"") ∧
    (∀ s, p.notes = .pstr s →
      cellAt dateToMs nowMs p 13 = "\"" ++ escQuotes s ++ "\"") ∧
    (∀ s, countQuote (escQuotes s) = 2 * countQuote s) ∧
    (emptyJ p.city → cellAt dateToMs nowMs p 1 = "") ∧
    (emptyJ p.zip → cellAt dateToMs nowMs p 2 = "") ∧
    (emptyJ p.county → cellAt dateToMs nowMs p 3 = "") ∧
    (emptyJ p.type → cellAt dateToMs nowMs p 4 = "") ∧
    (emptyJ p.beds → cellAt dateToMs nowMs p 5 = "") ∧
    (emptyJ p.baths → cellAt dateToMs nowMs p 6 = "") ∧
    (emptyJ p.sqft → cellAt dateToMs nowMs p 7 = "") ∧
    (emptyJ p.asking → cellAt dateToMs nowMs p 8 = "") ∧
    (emptyJ p.arv → cellAt dateToMs nowMs p 9 = "") ∧
    (emptyJ p.rehab → cellAt dateToMs nowMs p 10 = "") ∧
    (emptyJ p.stage → cellAt dateToMs nowMs p 12 = "") ∧
    (emptyJ p.pictures → cellAt dateToMs nowMs p 14 = "") ∧
    (emptyJ p.contractLink → cellAt dateToMs nowMs p 15 = "") ∧
    (emptyJ p.investorSheetLink → cellAt dateToMs nowMs p 16 = "") ∧
    (emptyJ p.lat → cellAt dateToMs nowMs p 17 = "") ∧
    (emptyJ p.lng → cellAt dateToMs nowMs p 18 = "") ∧
    (emptyJ p.geoPrecision → cellAt dateToMs nowMs p 19 = "") ∧
    (emptyJ p.dateAdded → cellAt dateToMs nowMs p 20 = "" ∧
      cellAt dateToMs nowMs p 21 = "") ∧
    (emptyJ p.lastUpdated → cellAt dateToMs nowMs p 22 = "") ∧
    (∀ s, p.city = .pstr s → s ≠ "" → cellAt dateToMs nowMs p 1 = s) ∧
    (∀ s, p.zip = .pstr s → s ≠ "" → cellAt dateToMs nowMs p 2 = s) ∧
    (∀ s, p.county = .pstr s → s ≠ "" → cellAt dateToMs nowMs p 3 = s) ∧
    (∀ s, p.type = .pstr s → s ≠ "" → cellAt dateToMs nowMs p 4 = s) ∧
    (∀ s, p.stage = .pstr s → s ≠ "" → cellAt dateToMs nowMs p 12 = s) ∧
    (∀ s, p.pictures = .pstr s → s ≠ "" → cellAt dateToMs nowMs p 14 = s) ∧
    (∀ s, p.contractLink = .pstr s → s ≠ "" → cellAt dateToMs nowMs p 15 = s) ∧
    (∀ s, p.investorSheetLink = .pstr s → s ≠ "" →
      cellAt dateToMs nowMs p 16 = s) ∧
    (∀ s, p.geoPrecision = .pstr s → s ≠ "" → cellAt dateToMs nowMs p 19 = s) ∧
    (∀ s, p.dateAdded = .pstr s → s ≠ "" → cellAt dateToMs nowMs p 20 = s) ∧
    (∀ s, p.lastUpdated = .pstr s → s ≠ "" → cellAt dateToMs nowMs p 22 = s) ∧
    exportCSVString dateToMs nowMs [p] =
      .ok (joinWith "\n"
        [csvHeader, joinWith "," (rowCellsPure dateToMs nowMs p)]) := by
  refine ⟨rowCells_ok _ _ _ hnotes, rfl,
    ?_, ?_, ?_, ?_, ?_, ?_, ?_, ?_, ?_, ?_, ?_, ?_, ?_, ?_, ?_, ?_, ?_, ?_,
    ?_, ?_, ?_, ?_, ?_, ?_, ?_, ?_, ?_, ?_, ?_, ?_, ?_, ?_, ?_, ?_, ?_, ?_⟩
  · intro s hs
    rw [cellAt0, hs]
    rfl
  · rintro (h | h | h) <;> rw [cellAt11, h] <;> rfl
  · intro s hs hne
    rw [cellAt11, hs]
    simp [jsOrEmptyStr, truthy, hne, jsTemplateStr]
  · intro s hs
    rw [cellAt13, hs]
    by_cases hne : s = ""
    · subst hne
      rfl
    · simp [notesCellPure, jsOrEmptyStr, truthy, hne]
  · exact escQuotes_countQuote
  · rintro (h | h | h) <;> rw [cellAt1, h] <;> rfl
  · rintro (h | h | h) <;> rw [cellAt2, h] <;> rfl
  · rintro (h | h | h) <;> rw [cellAt3, h] <;> rfl
  · rintro (h | h | h) <;> rw [cellAt4, h] <;> rfl
  · rintro (h | h | h) <;> rw [cellAt5, h] <;> rfl
  · rintro (h | h | h) <;> rw [cellAt6, h] <;> rfl
  · rintro (h | h | h) <;> rw [cellAt7, h] <;> rfl
  · rintro (h | h | h) <;> rw [cellAt8, h] <;> rfl
  · rintro (h | h | h) <;> rw [cellAt9, h] <;> rfl
  · rintro (h | h | h) <;> rw [cellAt10, h] <;> rfl
  · rintro (h | h | h) <;> rw [cellAt12, h] <;> rfl
  · rintro (h | h | h) <;> rw [cellAt14, h] <;> rfl
  · rintro (h | h | h) <;> rw [cellAt15, h] <;> rfl
  · rintro (h | h | h) <;> rw [cellAt16, h] <;> rfl
  · rintro (h | h | h) <;> rw [cellAt17, h] <;> rfl
  · rintro (h | h | h) <;> rw [cellAt18, h] <;> rfl
  · rintro (h | h | h) <;> rw [cellAt19, h] <;> rfl
  · rintro (h | h | h) <;>
      exact ⟨by rw [cellAt20]; rw [h]; rfl, by rw [cellAt21]; rw [h]; rfl⟩
  · rintro (h | h | h) <;> rw [cellAt22, h] <;> rfl
  · intro s hs hne
    rw [cellAt1, hs]
    rfl
  · intro s hs hne
    rw [cellAt2, hs]
    simp [jsOrEmptyStr, truthy, hne, joinStr, jsTemplateStr]
  · intro s hs hne
    rw [cellAt3, hs]
    simp [jsOrEmptyStr, truthy, hne, joinStr, jsTemplateStr]
  · intro s hs hne
    rw [cellAt4, hs]
    rfl
  · intro s hs hne
    rw [cellAt12, hs]
    rfl
  · intro s hs hne
    rw [cellAt14, hs]
    simp [jsOrEmptyStr, truthy, hne, joinStr, jsTemplateStr]
  · intro s hs hne
    rw [cellAt15, hs]
    simp [jsOrEmptyStr, truthy, hne, joinStr, jsTemplateStr]
  · intro s hs hne
    rw [cellAt16, hs]
    simp [jsOrEmptyStr, truthy, hne, joinStr, jsTemplateStr]
  · intro s hs hne
    rw [cellAt19, hs]
    simp [jsOrEmptyStr, truthy, hne, joinStr, jsTemplateStr]
  · intro s hs hne
    rw [cellAt20, hs]
    simp [jsOrEmptyStr, truthy, hne, joinStr, jsTemplateStr]
  · intro s hs hne
    rw [cellAt22, hs]
    simp [jsOrEmptyStr, truthy, hne, joinStr, jsTemplateStr]
  · unfold exportCSVString mapE
    rw [rowCells_ok _ _ _ hnotes]
    rfl

/-- C9 witness: the record with notes "Gas heat, central air" exports that
cell exactly as `"Gas heat, central air"` (quoted, comma preserved); the
address cell is quoted; the null zip is an empty cell, the null access the
quoted empty cell, and the city is verbatim and unquoted. -/
theorem exportCSV_cell_quoting_witness :
    cellAt noClock .nan c9p 0 = "\"" ++ "105 Mohawk St" ++ "\"" ∧
    cellAt noClock .nan c9p 13 = "\"Gas heat, central air\"" ∧
    cellAt noClock .nan c9p 2 = "" ∧
    cellAt noClock .nan c9p 11 = "\"\"" ∧
    cellAt noClock .nan c9p 1 = "Bruin" := by
  have h := exportCSV_cell_quoting noClock .nan c9p (Or.inr ⟨_, rfl⟩)
  obtain ⟨-, -, haddr, haccE, -, hnts, -, -, hzip, hrest⟩ := h
  refine ⟨haddr _ rfl, ?_, hzip (Or.inl rfl), haccE (Or.inl rfl), ?_⟩
  · rw [hnts _ rfl]
    rfl
  · obtain ⟨-, -, -, -, -, -, -, -, -, -, -, -, -, -, -, -, -, hcity, -⟩ := hrest
    exact hcity "Bruin" rfl (by decide)

/-- C10: the `address` and `access` cells are wrapped in quotes with their
contents emitted verbatim — embedded double quotes are NOT doubled (only the
notes cell is escaped) — so whenever the value contains a double quote the
emitted cell differs from the correctly escaped CSV cell for that value
(its quoting is unbalanced by the undoubled quotes). -/
theorem exportCSV_address_access_not_escaped (dateToMs : JPrim → JSNum)
    (nowMs : JSNum) (p : Property)
    (hnotes : truthy p.notes = false ∨ ∃ s, p.notes = .pstr s) :
    rowCells dateToMs nowMs p = .ok (rowCellsPure dateToMs nowMs p) ∧
    (∀ s, p.address = .pstr s →
      cellAt dateToMs nowMs p 0 = "\"" ++ s ++ "\"" ∧
      (countQuote s ≠ 0 →
        cellAt dateToMs nowMs p 0 ≠ "\"" ++ escQuotes s ++ "\"")) ∧
    (∀ s, p.access = .pstr s → s ≠ "" →
      cellAt dateToMs nowMs p 11 = "\"" ++ s ++ "\"" ∧
      (countQuote s ≠ 0 →
        cellAt dateToMs nowMs p 11 ≠ "\"" ++ escQuotes s ++ "\"")) := by
  refine ⟨rowCells_ok _ _ _ hnotes, ?_, ?_⟩
  · intro s hs
    have he : cellAt dateToMs nowMs p 0 = "\"" ++ s ++ "\"" := by
      rw [cellAt0, hs]
      rfl
    refine ⟨he, ?_⟩
    intro hq
    rw [he]
    exact wrap_ne_escaped hq
  · intro s hs hne
    have he : cellAt dateToMs nowMs p 11 = "\"" ++ s ++ "\"" := by
      rw [cellAt11, hs]
      simp [jsOrEmptyStr, truthy, hne, jsTemplateStr]
    refine ⟨he, ?_⟩
    intro hq
    rw [he]
    exact wrap_ne_escaped hq

/-- C10 witness: the quote inside the address is emitted verbatim, producing
a cell that is not the escaped encoding of the value; likewise for access. -/
theorem exportCSV_address_access_not_escaped_witness :
    cellAt noClock .nan c10p 0 = "\"" ++ "He said \"hi\" St" ++ "\"" ∧
    cellAt noClock .nan c10p 0 ≠ "\"" ++ escQuotes "He said \"hi\" St" ++ "\"" ∧
    cellAt noClock .nan c10p 11 = "\"" ++ "Code \"Z\"" ++ "\"" ∧
    cellAt noClock .nan c10p 11 ≠ "\"" ++ escQuotes "Code \"Z\"" ++ "\"" := by
  have h := exportCSV_address_access_not_escaped noClock .nan c10p (Or.inl rfl)
  obtain ⟨-, haddr, hacc⟩ := h
  obtain ⟨h1, h2⟩ := haddr _ rfl
  obtain ⟨h3, h4⟩ := hacc _ rfl (by decide)
  exact ⟨h1, h2 (by decide), h3, h4 (by decide)⟩

end JPS
